import Mathlib

/-!
# Wallet — Ledger & Request-Approval Engine, shallow embedding

Shallow embedding of the core services of the Wallet repository
(`server/services/depositService.js`, `withdrawalService.js`,
`referralBonusService.js` and their repositories), faithful to the
JavaScript source:

* monetary amounts are integers in paise (`Int`), as the source stores
  them (`wallet_balance`, `amount` columns are integer paise);
* each database table is a Lean list (`users` is an association list
  keyed by user id, mirroring the primary key); `UPDATE ... WHERE id`
  is a `List.map` that rewrites the matching rows;
* each service method becomes a function `Engine → ... → Except Err ...`;
  a thrown JS error is `Except.error`, and since every service method
  runs inside a `BEGIN`/`COMMIT`/`ROLLBACK` scope, an error returns no
  state: the caller keeps the pre-state (rollback semantics);
* the string-matched JS errors are replaced by a closed tagged error
  type, one tag per distinct guard, exactly as §9 of the design notes
  prescribes.
-/

namespace Wallet

/-- Closed error taxonomy for the engine (spec §7).  Each constructor
corresponds to one family of `throw new Error(...)` sites in the source. -/
inductive Err where
  /-- amount below floor / malformed payout details / missing proof -/
  | validationError (msg : String)
  /-- referral threshold unmet; carries the remaining count -/
  | eligibilityNotMet (remaining : Nat)
  /-- balance would go negative (`'Insufficient balance'`) -/
  | insufficientFunds
  /-- request / account / bonus missing -/
  | notFound
  /-- terminal-state guard violated (`'... has already been processed'`) -/
  | alreadyProcessed
  /-- `'You are not authorized to claim this bonus'` -/
  | forbidden
  /-- `'This bonus has already been claimed'` -/
  | alreadyClaimed
  /-- `'A claim request for this bonus is already pending'` -/
  | claimPending
deriving Repr, DecidableEq

/-- Request status.  The source stores statuses as strings; the four
values `'pending' | 'approved' | 'completed' | 'rejected'` cover every
status any service writes (deposits/claims use `approved`, withdrawals
use `completed`). -/
inductive Status where
  | pending
  | approved
  | completed
  | rejected
deriving Repr, DecidableEq

/-- A row of the `users` table, restricted to the fields the engine
reads: `referred_by` and `wallet_balance` (`UserRepository.findById`). -/
structure User where
  referredBy : Option Nat
  walletBalance : Int
deriving Repr, DecidableEq

/-- Payout-destination data (`bank_details` JSONB).  A JS field that is
`undefined`/`null` is `none`; the empty string is kept distinct because
JS truthiness (`if (upiId)`) treats `''` as absent. -/
structure BankDetails where
  upiId : Option String
  accountNumber : Option String
  ifscCode : Option String
  accountHolderName : Option String
deriving Repr, DecidableEq

/-- JS truthiness of an optional string field: present and non-empty. -/
def truthy : Option String → Bool
  | none => false
  | some s => !s.isEmpty

/-- Character class `[a-zA-Z0-9._-]` of the UPI regex. -/
def isUpiLocalChar (c : Char) : Bool :=
  c.isAlpha || c.isDigit || c == '.' || c == '_' || c == '-'

/-- `/^[a-zA-Z0-9._-]+@[a-zA-Z0-9]+$/` (withdrawalService.js:206).
A string matches iff it splits at a single `'@'` into a non-empty
local part over `[a-zA-Z0-9._-]` and a non-empty alphanumeric
provider part (neither part may contain `'@'`, so `splitOn` yielding
exactly two pieces is equivalent to the anchored regex). -/
def upiMatches (s : String) : Bool :=
  match s.splitOn "@" with
  | [lp, pr] =>
      !lp.isEmpty && lp.toList.all isUpiLocalChar &&
      !pr.isEmpty && pr.toList.all (fun c => c.isAlpha || c.isDigit)
  | _ => false

/-- `/^[A-Z]{4}0[A-Z0-9]{6}$/` (withdrawalService.js:219): exactly four
uppercase letters, the digit `'0'`, then six uppercase-or-digit chars. -/
def ifscMatches (s : String) : Bool :=
  match s.toList with
  | [c0, c1, c2, c3, c4, c5, c6, c7, c8, c9, c10] =>
      c0.isUpper && c1.isUpper && c2.isUpper && c3.isUpper &&
      c4 == '0' &&
      (c5.isUpper || c5.isDigit) && (c6.isUpper || c6.isDigit) &&
      (c7.isUpper || c7.isDigit) && (c8.isUpper || c8.isDigit) &&
      (c9.isUpper || c9.isDigit) && (c10.isUpper || c10.isDigit)
  | _ => false

/-- `WithdrawalService.validateBankDetails` (withdrawalService.js:192).
`none` models a missing (`undefined`) `bankDetails` argument. -/
def validateBankDetails (bd? : Option BankDetails) : Except Err Unit :=
  match bd? with
  | none => .error (.validationError "Bank details are required")
  | some bd =>
    if !truthy bd.upiId && !truthy bd.accountNumber then
      .error (.validationError "Either UPI ID or account number is required")
    else if truthy bd.upiId && !upiMatches (bd.upiId.getD "") then
      .error (.validationError "Invalid UPI ID format. Expected format: user@bank")
    else if truthy bd.accountNumber && !truthy bd.ifscCode then
      .error (.validationError "IFSC code is required when providing account number")
    else if truthy bd.ifscCode && !ifscMatches (bd.ifscCode.getD "") then
      .error (.validationError "Invalid IFSC code format")
    else
      .ok ()

/-- A row of `deposit_requests` (depositRepository.js). -/
structure DepositReq where
  id : Nat
  userId : Nat
  amount : Int
  transactionId : Option String
  paymentProofUrl : String
  status : Status
  createdAt : Nat
  processedAt : Option Nat
  processedBy : Option Nat
  rejectionReason : Option String
deriving Repr, DecidableEq

/-- A row of `withdrawal_requests` (withdrawalRepository.js). -/
structure WithdrawalReq where
  id : Nat
  userId : Nat
  amount : Int
  bankDetails : BankDetails
  status : Status
  createdAt : Nat
  processedAt : Option Nat
  processedBy : Option Nat
  rejectionReason : Option String
deriving Repr, DecidableEq

/-- A row of `referral_bonuses` (referralBonusRepository.js). -/
structure ReferralBonus where
  id : Nat
  referrerId : Nat
  referredUserId : Nat
  depositId : Nat
  depositAmount : Int
  bonusAmount : Int
  isClaimed : Bool
  createdAt : Nat
deriving Repr, DecidableEq

/-- A row of `bonus_claim_requests` (referralBonusRepository.js). -/
structure ClaimReq where
  id : Nat
  userId : Nat
  bonusId : Nat
  amount : Int
  status : Status
  createdAt : Nat
  processedAt : Option Nat
  processedBy : Option Nat
  rejectionReason : Option String
deriving Repr, DecidableEq

/-- The persistent state of the engine: the five relations of spec §3.
`users` is an association list keyed by user id (primary key); `nextId`
supplies the next generated row id (the DB sequence / UUID source). -/
structure Engine where
  users : List (Nat × User)
  deposits : List DepositReq
  withdrawals : List WithdrawalReq
  bonuses : List ReferralBonus
  claims : List ClaimReq
  nextId : Nat
deriving Repr, DecidableEq

/-! ## Repository layer: row lookup and row update -/

/-- `UserRepository.findById` restricted to the fields the engine reads. -/
def findUser (s : Engine) (uid : Nat) : Option User :=
  (s.users.find? (fun p => p.1 == uid)).map (·.2)

/-- Balance of an account as the services read it (`user.walletBalance`). -/
def balanceOf (s : Engine) (uid : Nat) : Option Int :=
  (findUser s uid).map (·.walletBalance)

/-- `UserRepository.updateBalance`: `UPDATE users SET wallet_balance = $1
WHERE id = $2`. -/
def updateUserBalance (s : Engine) (uid : Nat) (nb : Int) : Engine :=
  { s with users :=
      s.users.map (fun p =>
        if p.1 == uid then (p.1, { p.2 with walletBalance := nb }) else p) }

/-- `DepositRepository.findById`. -/
def findDeposit (s : Engine) (i : Nat) : Option DepositReq :=
  s.deposits.find? (fun d => d.id == i)

/-- `WithdrawalRepository.findById`. -/
def findWithdrawal (s : Engine) (i : Nat) : Option WithdrawalReq :=
  s.withdrawals.find? (fun w => w.id == i)

/-- `ReferralBonusRepository.findById`. -/
def findBonus (s : Engine) (i : Nat) : Option ReferralBonus :=
  s.bonuses.find? (fun b => b.id == i)

/-- `ReferralBonusRepository.findClaimById`.  The SQL joins `users` and
`referral_bonuses` only to add display columns; with intact foreign
keys the row set is the plain primary-key lookup modelled here. -/
def findClaim (s : Engine) (i : Nat) : Option ClaimReq :=
  s.claims.find? (fun c => c.id == i)

/-- The row transform of `DepositRepository.updateStatus`
(depositRepository.js:159): sets `status`, `processed_at`,
`processed_by`, `rejection_reason`; every other column is untouched. -/
def depositStatusRow (d : DepositReq) (st : Status) (adminId : Nat)
    (reason : Option String) (now : Nat) : DepositReq :=
  { d with status := st, processedAt := some now,
           processedBy := some adminId, rejectionReason := reason }

/-- The row transform of `WithdrawalRepository.updateStatus`
(withdrawalRepository.js:154). -/
def withdrawalStatusRow (w : WithdrawalReq) (st : Status) (adminId : Nat)
    (reason : Option String) (now : Nat) : WithdrawalReq :=
  { w with status := st, processedAt := some now,
           processedBy := some adminId, rejectionReason := reason }

/-- The row transform of `ReferralBonusRepository.updateClaimStatus`
(referralBonusRepository.js:403). -/
def claimStatusRow (c : ClaimReq) (st : Status) (adminId : Nat)
    (reason : Option String) (now : Nat) : ClaimReq :=
  { c with status := st, processedAt := some now,
           processedBy := some adminId, rejectionReason := reason }

/-- `DepositRepository.updateStatus` at the table level:
`UPDATE deposit_requests SET ... WHERE id = $4`. -/
def setDepositStatus (s : Engine) (i : Nat) (st : Status) (adminId : Nat)
    (reason : Option String) (now : Nat) : Engine :=
  { s with deposits :=
      s.deposits.map (fun d =>
        if d.id == i then depositStatusRow d st adminId reason now else d) }

/-- `WithdrawalRepository.updateStatus` at the table level. -/
def setWithdrawalStatus (s : Engine) (i : Nat) (st : Status) (adminId : Nat)
    (reason : Option String) (now : Nat) : Engine :=
  { s with withdrawals :=
      s.withdrawals.map (fun w =>
        if w.id == i then withdrawalStatusRow w st adminId reason now else w) }

/-- `ReferralBonusRepository.updateClaimStatus` at the table level. -/
def setClaimStatus (s : Engine) (i : Nat) (st : Status) (adminId : Nat)
    (reason : Option String) (now : Nat) : Engine :=
  { s with claims :=
      s.claims.map (fun c =>
        if c.id == i then claimStatusRow c st adminId reason now else c) }

/-- `ReferralBonusRepository.markAsClaimed`:
`UPDATE referral_bonuses SET is_claimed = TRUE WHERE id = $1`. -/
def markAsClaimed (s : Engine) (i : Nat) : Engine :=
  { s with bonuses :=
      s.bonuses.map (fun b =>
        if b.id == i then { b with isClaimed := true } else b) }

/-- `ReferralBonusRepository.hasPendingClaim`: `SELECT id FROM
bonus_claim_requests WHERE bonus_id = $1 AND status = 'pending'`. -/
def hasPendingClaim (s : Engine) (bonusId : Nat) : Bool :=
  s.claims.any (fun c => c.bonusId == bonusId && decide (c.status = .pending))

/-- The referral-eligibility count (withdrawalService.js:249 and
`ReferralService.getConfirmedReferralCount`): `COUNT(DISTINCT u.id)`
over users with `referred_by = $1` that have at least one deposit with
`status = 'approved'`.  The association list is keyed by the primary
key, so its filtered length is the distinct count. -/
def confirmedReferralCount (s : Engine) (uid : Nat) : Nat :=
  (s.users.filter (fun p =>
    decide (p.2.referredBy = some uid) &&
    s.deposits.any (fun d => d.userId == p.1 && decide (d.status = .approved)))).length

/-- `REQUIRED_REFERRALS` (withdrawalService.js:257). -/
def REQUIRED_REFERRALS : Nat := 5

/-- The row inserted by `DepositRepository.create`:
`INSERT INTO deposit_requests (...) VALUES (..., 'pending')`. -/
def depositInsertRow (i uid : Nat) (am : Int) (pf : String) (tx : Option String)
    (now : Nat) : DepositReq :=
  { id := i, userId := uid, amount := am, transactionId := tx,
    paymentProofUrl := pf, status := .pending, createdAt := now,
    processedAt := none, processedBy := none, rejectionReason := none }

/-- The row inserted by the withdrawal INSERT inside
`createWithdrawalRequest` (withdrawalService.js:296): status `'pending'`. -/
def withdrawalInsertRow (i uid : Nat) (am : Int) (bd : BankDetails)
    (now : Nat) : WithdrawalReq :=
  { id := i, userId := uid, amount := am, bankDetails := bd,
    status := .pending, createdAt := now,
    processedAt := none, processedBy := none, rejectionReason := none }

/-- The row inserted by `ReferralBonusRepository.create`: unclaimed. -/
def bonusInsertRow (i rid ruid did : Nat) (damt bamt : Int)
    (now : Nat) : ReferralBonus :=
  { id := i, referrerId := rid, referredUserId := ruid, depositId := did,
    depositAmount := damt, bonusAmount := bamt, isClaimed := false,
    createdAt := now }

/-- The row inserted by `ReferralBonusRepository.createClaimRequest`:
status defaults to `'pending'`. -/
def claimInsertRow (i uid bid : Nat) (am : Int) (now : Nat) : ClaimReq :=
  { id := i, userId := uid, bonusId := bid, amount := am,
    status := .pending, createdAt := now,
    processedAt := none, processedBy := none, rejectionReason := none }

/-! ## Service layer

Each service method takes the engine state, its JS arguments, and a
`now : Nat` clock value standing for `CURRENT_TIMESTAMP`, and returns
`Except Err (newState × result)`.  A JS `throw` is `Except.error`;
because every method runs under `BEGIN`/`ROLLBACK`, an error leaves
the caller with the unchanged pre-state. -/

/-- `DepositService.createDepositRequest` (depositService.js).  The
image validation/optimization of the proof artifact is an external
collaborator (spec §1); the engine only requires the proof to be
present (`'Payment proof is required'`) and stores its opaque URL. -/
def createDepositRequest (s : Engine) (userId : Nat) (amount : Int)
    (proof? : Option String) (txnId : Option String) (now : Nat) :
    Except Err (Engine × DepositReq) :=
  if amount ≤ 0 then
    .error (.validationError "Amount must be greater than zero")
  else if amount < 100 then
    .error (.validationError "Minimum deposit amount is 100 paise")
  else
    match proof? with
    | none => .error (.validationError "Payment proof is required")
    | some proof =>
      let d := depositInsertRow s.nextId userId amount proof txnId now
      .ok ({ s with deposits := s.deposits ++ [d], nextId := s.nextId + 1 }, d)

/-- `ReferralBonusService.createBonusForDeposit`
(referralBonusService.js:255).  `BONUS_PERCENTAGE = 0.05`; the source
computes `Math.floor(depositAmount * 0.05)`, which for integer paise
amounts is exactly floor division by 20 (`0.05 = 1/20`), embedded as
`Int.fdiv depositAmount 20`.  Never throws in-domain, so it returns
the new state and the created bonus (or `none`). -/
def createBonusForDeposit (s : Engine) (depositUserId depositId : Nat)
    (depositAmount : Int) (now : Nat) : Engine × Option ReferralBonus :=
  match findUser s depositUserId with
  | none => (s, none)
  | some u =>
    match u.referredBy with
    | none => (s, none)
    | some referrerId =>
      let bonusAmount := Int.fdiv depositAmount 20
      if bonusAmount ≤ 0 then (s, none)
      else
        let b := bonusInsertRow s.nextId referrerId depositUserId depositId
          depositAmount bonusAmount now
        ({ s with bonuses := s.bonuses ++ [b], nextId := s.nextId + 1 }, some b)

/-- `DepositService.approveDeposit` (depositService.js:545).
`bonusOk` models whether the nested `createBonusForDeposit` call
completes (`true`) or throws (`false`); its exception is swallowed by
the `try/catch`, so on `false` the approval and credited balance stand
and only the bonus insert is absent. -/
def approveDeposit (s : Engine) (depositId adminId : Nat) (bonusOk : Bool)
    (now : Nat) : Except Err (Engine × DepositReq × Int) :=
  match findDeposit s depositId with
  | none => .error .notFound
  | some d =>
    if d.status ≠ .pending then .error .alreadyProcessed
    else
      match findUser s d.userId with
      | none => .error .notFound
      | some u =>
        let newBalance := u.walletBalance + d.amount
        let s1 := updateUserBalance s d.userId newBalance
        let s2 := setDepositStatus s1 depositId .approved adminId none now
        let s3 := if bonusOk then (createBonusForDeposit s2 d.userId depositId d.amount now).1 else s2
        .ok (s3, depositStatusRow d .approved adminId none now, newBalance)

/-- `DepositService.rejectDeposit` (depositService.js:613). -/
def rejectDeposit (s : Engine) (depositId adminId : Nat)
    (reason : Option String) (now : Nat) : Except Err (Engine × DepositReq) :=
  match findDeposit s depositId with
  | none => .error .notFound
  | some d =>
    if d.status ≠ .pending then .error .alreadyProcessed
    else
      .ok (setDepositStatus s depositId .rejected adminId reason now,
           depositStatusRow d .rejected adminId reason now)

/-- `WithdrawalService.createWithdrawalRequest`
(withdrawalService.js:234).  The whole method is one transaction on
the locked account row: amount floor, referral-eligibility gate, bank
details, `FOR UPDATE` read, balance check, immediate debit (fund
reservation), and the pending insert.  Any failure rolls back. -/
def createWithdrawalRequest (s : Engine) (userId : Nat) (amount : Int)
    (bd? : Option BankDetails) (now : Nat) :
    Except Err (Engine × WithdrawalReq) :=
  if amount ≤ 0 then
    .error (.validationError "Amount must be greater than zero")
  else if amount < 100 then
    .error (.validationError "Minimum withdrawal amount is 100 paise")
  else
    let confirmed := confirmedReferralCount s userId
    if confirmed < REQUIRED_REFERRALS then
      .error (.eligibilityNotMet (REQUIRED_REFERRALS - confirmed))
    else
      match validateBankDetails bd?, bd? with
      | .error e, _ => .error e
      | .ok _, none => .error (.validationError "Bank details are required")
      | .ok _, some bd =>
        match findUser s userId with
        | none => .error .notFound
        | some u =>
          if u.walletBalance < amount then .error .insufficientFunds
          else
            let newBalance := u.walletBalance - amount
            let s1 := updateUserBalance s userId newBalance
            let w := withdrawalInsertRow s.nextId userId amount bd now
            .ok ({ s1 with withdrawals := s1.withdrawals ++ [w],
                           nextId := s1.nextId + 1 }, w)

/-- `WithdrawalService.confirmWithdrawal` (withdrawalService.js:332):
guard, then `updateStatus(id, 'completed', adminId, null)`.  No
balance mutation — the funds were reserved at creation. -/
def confirmWithdrawal (s : Engine) (withdrawalId adminId : Nat) (now : Nat) :
    Except Err (Engine × WithdrawalReq) :=
  match findWithdrawal s withdrawalId with
  | none => .error .notFound
  | some w =>
    if w.status ≠ .pending then .error .alreadyProcessed
    else
      .ok (setWithdrawalStatus s withdrawalId .completed adminId none now,
           withdrawalStatusRow w .completed adminId none now)

/-- `WithdrawalService.rejectWithdrawal` (withdrawalService.js:363):
guard, refund `walletBalance + amount`, then
`updateStatus(id, 'rejected', adminId, reason)`. -/
def rejectWithdrawal (s : Engine) (withdrawalId adminId : Nat)
    (reason : Option String) (now : Nat) :
    Except Err (Engine × WithdrawalReq × Int) :=
  match findWithdrawal s withdrawalId with
  | none => .error .notFound
  | some w =>
    if w.status ≠ .pending then .error .alreadyProcessed
    else
      match findUser s w.userId with
      | none => .error .notFound
      | some u =>
        let newBalance := u.walletBalance + w.amount
        let s1 := updateUserBalance s w.userId newBalance
        .ok (setWithdrawalStatus s1 withdrawalId .rejected adminId reason now,
             withdrawalStatusRow w .rejected adminId reason now, newBalance)

/-- `ReferralBonusService.claimBonus` (referralBonusService.js:322):
`NotFound` / `Forbidden` / `AlreadyClaimed` / `ClaimPending` guards,
then inserts a pending claim carrying the bonus's current amount.
The bonus itself is not marked claimed. -/
def claimBonus (s : Engine) (userId bonusId : Nat) (now : Nat) :
    Except Err (Engine × ClaimReq) :=
  match findBonus s bonusId with
  | none => .error .notFound
  | some b =>
    if b.referrerId ≠ userId then .error .forbidden
    else if b.isClaimed then .error .alreadyClaimed
    else if hasPendingClaim s bonusId then .error .claimPending
    else
      let c := claimInsertRow s.nextId userId bonusId b.bonusAmount now
      .ok ({ s with claims := s.claims ++ [c], nextId := s.nextId + 1 }, c)

/-- `ReferralBonusService.approveClaim` (referralBonusService.js:419):
guard, credit `walletBalance + claim.amount`, mark the bonus claimed,
set claim status `approved`. -/
def approveClaim (s : Engine) (claimId adminId : Nat) (now : Nat) :
    Except Err (Engine × ClaimReq × Int) :=
  match findClaim s claimId with
  | none => .error .notFound
  | some c =>
    if c.status ≠ .pending then .error .alreadyProcessed
    else
      match findUser s c.userId with
      | none => .error .notFound
      | some u =>
        let newBalance := u.walletBalance + c.amount
        let s1 := updateUserBalance s c.userId newBalance
        let s2 := markAsClaimed s1 c.bonusId
        .ok (setClaimStatus s2 claimId .approved adminId none now,
             claimStatusRow c .approved adminId none now, newBalance)

/-- `ReferralBonusService.rejectClaim` (referralBonusService.js:481):
guard, set claim status `rejected`; the bonus stays unclaimed. -/
def rejectClaim (s : Engine) (claimId adminId : Nat)
    (reason : Option String) (now : Nat) : Except Err (Engine × ClaimReq) :=
  match findClaim s claimId with
  | none => .error .notFound
  | some c =>
    if c.status ≠ .pending then .error .alreadyProcessed
    else
      .ok (setClaimStatus s claimId .rejected adminId reason now,
           claimStatusRow c .rejected adminId reason now)

/-- The spec's bonus formula, `⌊depositAmount × 0.05⌋`, written over ℚ
(`0.05 = 5/100` exactly).  Stated from the spec's words, to be compared
with the source's `Math.floor(depositAmount * 0.05)` embedded as
`Int.fdiv depositAmount 20`. -/
def specBonusAmount (n : Int) : Int := ⌊(n : ℚ) * (5 / 100)⌋

/-- The state a caller observes after a service call: the new state on
success, the unchanged pre-state on an error (the method's
`BEGIN`/`COMMIT`/`ROLLBACK` frame: a thrown error rolls the whole
transaction back, so no partial effect is observable). -/
def commitState {α : Type} (s : Engine) (r : Except Err (Engine × α)) : Engine :=
  match r with
  | .ok (s', _) => s'
  | .error _ => s

/-- Claim exclusivity (spec §3): at most one pending claim row exists
per bonus — any two pending claims on the same bonus are the same row. -/
def ClaimExclusive (s : Engine) : Prop :=
  ∀ c1 ∈ s.claims, ∀ c2 ∈ s.claims,
    c1.status = .pending → c2.status = .pending → c1.bonusId = c2.bonusId → c1 = c2

instance (s : Engine) : Decidable (ClaimExclusive s) := by
  unfold ClaimExclusive; infer_instance

/-! ## Concrete states used to exercise the theorems -/

/-- The empty store. -/
def emptyEngine : Engine :=
  { users := [], deposits := [], withdrawals := [], bonuses := [],
    claims := [], nextId := 0 }

/-- Payout details with an account number and a well-formed IFSC code. -/
def bdAcct : BankDetails :=
  { upiId := none, accountNumber := some "1234567890",
    ifscCode := some "ABCD0EF1234", accountHolderName := none }

/-- User 1 (balance 150 paise, no referrer) has referred users 2–6, each
with one approved deposit: the eligibility gate is met, but the balance
is small. -/
def eligState : Engine :=
  { users := [(1, ⟨none, 150⟩), (2, ⟨some 1, 0⟩), (3, ⟨some 1, 0⟩),
              (4, ⟨some 1, 0⟩), (5, ⟨some 1, 0⟩), (6, ⟨some 1, 0⟩)],
    deposits := [⟨10, 2, 10000, none, "p", .approved, 0, none, none, none⟩,
                 ⟨11, 3, 10000, none, "p", .approved, 0, none, none, none⟩,
                 ⟨12, 4, 10000, none, "p", .approved, 0, none, none, none⟩,
                 ⟨13, 5, 10000, none, "p", .approved, 0, none, none, none⟩,
                 ⟨14, 6, 10000, none, "p", .approved, 0, none, none, none⟩],
    withdrawals := [], bonuses := [], claims := [], nextId := 20 }

/-- Like `eligState` but user 1 holds 50 000 paise: every precondition
of a 20 000-paise withdrawal holds. -/
def richState : Engine :=
  { eligState with users := [(1, ⟨none, 50000⟩), (2, ⟨some 1, 0⟩), (3, ⟨some 1, 0⟩),
              (4, ⟨some 1, 0⟩), (5, ⟨some 1, 0⟩), (6, ⟨some 1, 0⟩)] }

/-- Like `eligState` but user 6's deposit is still pending: only 4
confirmed referrals. -/
def elig4State : Engine :=
  { users := [(1, ⟨none, 50000⟩), (2, ⟨some 1, 0⟩), (3, ⟨some 1, 0⟩),
              (4, ⟨some 1, 0⟩), (5, ⟨some 1, 0⟩), (6, ⟨some 1, 0⟩)],
    deposits := [⟨10, 2, 10000, none, "p", .approved, 0, none, none, none⟩,
                 ⟨11, 3, 10000, none, "p", .approved, 0, none, none, none⟩,
                 ⟨12, 4, 10000, none, "p", .approved, 0, none, none, none⟩,
                 ⟨13, 5, 10000, none, "p", .approved, 0, none, none, none⟩,
                 ⟨14, 6, 10000, none, "p", .pending, 0, none, none, none⟩],
    withdrawals := [], bonuses := [], claims := [], nextId := 20 }

/-- A single pending withdrawal of 200 paise for user 1. -/
def wPendingState : Engine :=
  { users := [(1, ⟨none, 500⟩)],
    deposits := [],
    withdrawals := [⟨7, 1, 200, bdAcct, .pending, 0, none, none, none⟩],
    bonuses := [], claims := [], nextId := 8 }

/-- A single pending deposit of 10 000 paise for user 1 (no referrer). -/
def dPendingState : Engine :=
  { users := [(1, ⟨none, 100⟩)],
    deposits := [⟨5, 1, 10000, none, "p", .pending, 0, none, none, none⟩],
    withdrawals := [], bonuses := [], claims := [], nextId := 6 }

/-- An unclaimed 500-paise bonus for referrer 1 (from user 2's deposit),
with no claim yet. -/
def bonusState : Engine :=
  { users := [(1, ⟨none, 0⟩), (2, ⟨some 1, 0⟩)],
    deposits := [], withdrawals := [],
    bonuses := [⟨3, 1, 2, 10, 10000, 500, false, 0⟩],
    claims := [], nextId := 4 }

/-- `bonusState` after a claim was filed and is pending. -/
def claimPendingState : Engine :=
  { users := [(1, ⟨none, 0⟩), (2, ⟨some 1, 0⟩)],
    deposits := [], withdrawals := [],
    bonuses := [⟨3, 1, 2, 10, 10000, 500, false, 0⟩],
    claims := [⟨4, 1, 3, 500, .pending, 0, none, none, none⟩], nextId := 5 }

/-! ## Well-formed states

`WF` is the reachable-state invariant the engine maintains: every
account balance is non-negative, and every stored monetary amount is
positive (all creation paths guard `amount ≥ 100` or `bonusAmount > 0`,
so reachable states satisfy it). -/

def WF (s : Engine) : Prop :=
  (∀ p ∈ s.users, 0 ≤ p.2.walletBalance) ∧
  (∀ d ∈ s.deposits, 0 < d.amount) ∧
  (∀ w ∈ s.withdrawals, 0 < w.amount) ∧
  (∀ b ∈ s.bonuses, 0 < b.bonusAmount) ∧
  (∀ c ∈ s.claims, 0 < c.amount)

instance (s : Engine) : Decidable (WF s) := by
  unfold WF; infer_instance

/-! ## Generic lemmas about `UPDATE ... WHERE id = i` on a table list -/

/-- Looking up id `i` after updating the rows with id `i`: the found row
is the transformed one (the transform must keep the id). -/
theorem find?_map_rowUpdate {α : Type} (idOf : α → Nat) (i : Nat) (h : α → α)
    (hid : ∀ x, idOf x = i → idOf (h x) = idOf x) (l : List α) :
    (l.map (fun x => if idOf x == i then h x else x)).find? (fun x => idOf x == i)
      = (l.find? (fun x => idOf x == i)).map h := by
  induction l with
  | nil => rfl
  | cons a t ih =>
    by_cases ha : idOf a = i
    · have h1 : (if (idOf a == i) = true then h a else a) = h a := by simp [ha]
      have h2 : ((fun x => idOf x == i) (h a)) = true := by simp [hid a ha, ha]
      have h3 : ((fun x => idOf x == i) a) = true := by simp [ha]
      rw [List.map_cons, h1]
      rw [List.find?_cons_of_pos, List.find?_cons_of_pos, Option.map_some']
      · exact h3
      · exact h2
    · have h1 : (if (idOf a == i) = true then h a else a) = a := by simp [ha]
      have h3 : ¬ ((fun x => idOf x == i) a) = true := by simp [ha]
      rw [List.map_cons, h1]
      rw [List.find?_cons_of_neg, List.find?_cons_of_neg, ih]
      · exact h3
      · exact h3

/-- Looking up a *different* id `j` after updating the rows with id `i`
is unaffected. -/
theorem find?_map_rowUpdate_ne {α : Type} (idOf : α → Nat) (i j : Nat) (h : α → α)
    (hid : ∀ x, idOf x = i → idOf (h x) = idOf x) (hne : j ≠ i) (l : List α) :
    (l.map (fun x => if idOf x == i then h x else x)).find? (fun x => idOf x == j)
      = l.find? (fun x => idOf x == j) := by
  induction l with
  | nil => rfl
  | cons a t ih =>
    by_cases ha : idOf a = i
    · have h1 : (if (idOf a == i) = true then h a else a) = h a := by simp [ha]
      have h2 : ¬ ((fun x => idOf x == j) (h a)) = true := by
        simp [hid a ha, ha, Ne.symm hne]
      have h3 : ¬ ((fun x => idOf x == j) a) = true := by simp [ha, Ne.symm hne]
      rw [List.map_cons, h1]
      rw [List.find?_cons_of_neg, List.find?_cons_of_neg, ih]
      · exact h3
      · exact h2
    · have h1 : (if (idOf a == i) = true then h a else a) = a := by simp [ha]
      by_cases hj : idOf a = j
      · have h2 : ((fun x => idOf x == j) a) = true := by simp [hj]
        rw [List.map_cons, h1]
        rw [List.find?_cons_of_pos, List.find?_cons_of_pos]
        · exact h2
        · exact h2
      · have h2 : ¬ ((fun x => idOf x == j) a) = true := by simp [hj]
        rw [List.map_cons, h1]
        rw [List.find?_cons_of_neg, List.find?_cons_of_neg, ih]
        · exact h2
        · exact h2

/-! ## Lookup/update interaction, per table -/

theorem findUser_updateBalance_self (s : Engine) (uid : Nat) (nb : Int) :
    findUser (updateUserBalance s uid nb) uid
      = (findUser s uid).map (fun u => { u with walletBalance := nb }) := by
  have := find?_map_rowUpdate (fun p : Nat × User => p.1) uid
    (fun p => (p.1, { p.2 with walletBalance := nb })) (fun x _ => rfl) s.users
  simp only [findUser, updateUserBalance]
  rw [this]
  cases List.find? (fun p => p.1 == uid) s.users <;> rfl

theorem findUser_updateBalance_ne (s : Engine) (uid uid' : Nat) (nb : Int)
    (hne : uid' ≠ uid) :
    findUser (updateUserBalance s uid nb) uid' = findUser s uid' := by
  have := find?_map_rowUpdate_ne (fun p : Nat × User => p.1) uid uid'
    (fun p => (p.1, { p.2 with walletBalance := nb })) (fun x _ => rfl) hne s.users
  simp only [findUser, updateUserBalance]
  rw [this]

theorem findDeposit_setStatus_self (s : Engine) (i : Nat) (st : Status)
    (a : Nat) (r : Option String) (n : Nat) :
    findDeposit (setDepositStatus s i st a r n) i
      = (findDeposit s i).map (fun d => depositStatusRow d st a r n) := by
  have := find?_map_rowUpdate (fun d : DepositReq => d.id) i
    (fun d => depositStatusRow d st a r n) (fun x _ => rfl) s.deposits
  simp only [findDeposit, setDepositStatus]
  rw [this]

theorem findWithdrawal_setStatus_self (s : Engine) (i : Nat) (st : Status)
    (a : Nat) (r : Option String) (n : Nat) :
    findWithdrawal (setWithdrawalStatus s i st a r n) i
      = (findWithdrawal s i).map (fun w => withdrawalStatusRow w st a r n) := by
  have := find?_map_rowUpdate (fun w : WithdrawalReq => w.id) i
    (fun w => withdrawalStatusRow w st a r n) (fun x _ => rfl) s.withdrawals
  simp only [findWithdrawal, setWithdrawalStatus]
  rw [this]

theorem findClaim_setStatus_self (s : Engine) (i : Nat) (st : Status)
    (a : Nat) (r : Option String) (n : Nat) :
    findClaim (setClaimStatus s i st a r n) i
      = (findClaim s i).map (fun c => claimStatusRow c st a r n) := by
  have := find?_map_rowUpdate (fun c : ClaimReq => c.id) i
    (fun c => claimStatusRow c st a r n) (fun x _ => rfl) s.claims
  simp only [findClaim, setClaimStatus]
  rw [this]

/-- `createBonusForDeposit` only ever touches `bonuses` and `nextId`. -/
theorem createBonus_frame (s : Engine) (duid did : Nat) (amt : Int) (n : Nat) :
    (createBonusForDeposit s duid did amt n).1.users = s.users ∧
    (createBonusForDeposit s duid did amt n).1.deposits = s.deposits ∧
    (createBonusForDeposit s duid did amt n).1.withdrawals = s.withdrawals ∧
    (createBonusForDeposit s duid did amt n).1.claims = s.claims := by
  unfold createBonusForDeposit
  split
  · exact ⟨rfl, rfl, rfl, rfl⟩
  · split
    · exact ⟨rfl, rfl, rfl, rfl⟩
    · by_cases h : Int.fdiv amt 20 ≤ 0 <;> simp [h]

theorem balanceOf_updateBalance_self (s : Engine) (uid : Nat) (nb : Int)
    (u : User) (hu : findUser s uid = some u) :
    balanceOf (updateUserBalance s uid nb) uid = some nb := by
  simp [balanceOf, findUser_updateBalance_self, hu]

theorem balanceOf_updateBalance_ne (s : Engine) (uid uid' : Nat) (nb : Int)
    (h : uid' ≠ uid) :
    balanceOf (updateUserBalance s uid nb) uid' = balanceOf s uid' := by
  simp [balanceOf, findUser_updateBalance_ne _ _ _ _ h]

theorem findUser_mem {s : Engine} {uid : Nat} {u : User}
    (h : findUser s uid = some u) : (uid, u) ∈ s.users := by
  simp only [findUser, Option.map_eq_some'] at h
  rcases h with ⟨p, hp, hpu⟩
  have hmem := List.mem_of_find?_eq_some hp
  have hkey : (p.1 == uid) = true := by
    have := List.find?_some hp
    simpa using this
  have : p = (uid, u) := by
    rcases p with ⟨k, v⟩
    simp at hkey hpu
    simp [hkey, hpu]
  rwa [this] at hmem

theorem users_nonneg_update {s : Engine} {uid : Nat} {nb : Int}
    (h : ∀ p ∈ s.users, 0 ≤ p.2.walletBalance) (hnb : 0 ≤ nb) :
    ∀ p ∈ (updateUserBalance s uid nb).users, 0 ≤ p.2.walletBalance := by
  intro p hp
  simp only [updateUserBalance] at hp
  rcases List.mem_map.1 hp with ⟨q, hq, rfl⟩
  by_cases hc : (q.1 == uid) = true
  · simpa [hc] using hnb
  · simpa [hc] using h q hq

theorem deposits_pos_setStatus {s : Engine} {i : Nat} {st : Status} {a : Nat}
    {r : Option String} {n : Nat} (h : ∀ d ∈ s.deposits, 0 < d.amount) :
    ∀ d ∈ (setDepositStatus s i st a r n).deposits, 0 < d.amount := by
  intro d hd
  simp only [setDepositStatus] at hd
  rcases List.mem_map.1 hd with ⟨q, hq, rfl⟩
  by_cases hc : (q.id == i) = true
  · simpa [hc, depositStatusRow] using h q hq
  · simpa [hc] using h q hq

theorem withdrawals_pos_setStatus {s : Engine} {i : Nat} {st : Status} {a : Nat}
    {r : Option String} {n : Nat} (h : ∀ w ∈ s.withdrawals, 0 < w.amount) :
    ∀ w ∈ (setWithdrawalStatus s i st a r n).withdrawals, 0 < w.amount := by
  intro w hw
  simp only [setWithdrawalStatus] at hw
  rcases List.mem_map.1 hw with ⟨q, hq, rfl⟩
  by_cases hc : (q.id == i) = true
  · simpa [hc, withdrawalStatusRow] using h q hq
  · simpa [hc] using h q hq

theorem claims_pos_setStatus {s : Engine} {i : Nat} {st : Status} {a : Nat}
    {r : Option String} {n : Nat} (h : ∀ c ∈ s.claims, 0 < c.amount) :
    ∀ c ∈ (setClaimStatus s i st a r n).claims, 0 < c.amount := by
  intro c hc'
  simp only [setClaimStatus] at hc'
  rcases List.mem_map.1 hc' with ⟨q, hq, rfl⟩
  by_cases hc : (q.id == i) = true
  · simpa [hc, claimStatusRow] using h q hq
  · simpa [hc] using h q hq

theorem bonuses_pos_markClaimed {s : Engine} {i : Nat}
    (h : ∀ b ∈ s.bonuses, 0 < b.bonusAmount) :
    ∀ b ∈ (markAsClaimed s i).bonuses, 0 < b.bonusAmount := by
  intro b hb
  simp only [markAsClaimed] at hb
  rcases List.mem_map.1 hb with ⟨q, hq, rfl⟩
  by_cases hc : (q.id == i) = true
  · simpa [hc] using h q hq
  · simpa [hc] using h q hq

/-- `createBonusForDeposit` preserves well-formedness: the only row it
can insert carries `bonusAmount > 0` (the `bonusAmount <= 0` guard). -/
theorem wf_createBonus (s : Engine) (duid did : Nat) (amt : Int) (n : Nat)
    (hwf : WF s) : WF (createBonusForDeposit s duid did amt n).1 := by
  rcases hwf with ⟨h1, h2, h3, h4, h5⟩
  unfold createBonusForDeposit
  split
  · exact ⟨h1, h2, h3, h4, h5⟩
  · split
    · exact ⟨h1, h2, h3, h4, h5⟩
    · by_cases h : Int.fdiv amt 20 ≤ 0
      · simpa [h] using ⟨h1, h2, h3, h4, h5⟩
      · simp only [h, if_false]
        refine ⟨h1, h2, h3, ?_, h5⟩
        intro b hb
        rcases List.mem_append.1 hb with hb | hb
        · exact h4 b hb
        · have : b.bonusAmount = Int.fdiv amt 20 := by
            simp at hb; simp [hb, bonusInsertRow]
          rw [this]; omega

/-! ## Forward evaluation lemmas: each operation's success path -/

theorem createDepositRequest_run (s : Engine) (uid : Nat) (am : Int)
    (pf : String) (tx : Option String) (now : Nat)
    (h0 : ¬ am ≤ 0) (h1 : ¬ am < 100) :
    createDepositRequest s uid am (some pf) tx now =
      .ok ({ s with
             deposits := s.deposits ++ [depositInsertRow s.nextId uid am pf tx now],
             nextId := s.nextId + 1 },
           depositInsertRow s.nextId uid am pf tx now) := by
  simp [createDepositRequest, h0, h1]

theorem approveDeposit_run (s : Engine) (did aid : Nat) (ok : Bool) (now : Nat)
    (d : DepositReq) (u : User)
    (hd : findDeposit s did = some d) (hst : d.status = .pending)
    (hu : findUser s d.userId = some u) :
    approveDeposit s did aid ok now =
      .ok ((if ok then
              (createBonusForDeposit
                (setDepositStatus (updateUserBalance s d.userId (u.walletBalance + d.amount))
                  did .approved aid none now) d.userId did d.amount now).1
            else
              setDepositStatus (updateUserBalance s d.userId (u.walletBalance + d.amount))
                did .approved aid none now),
           depositStatusRow d .approved aid none now,
           u.walletBalance + d.amount) := by
  simp [approveDeposit, hd, hst, hu]

theorem rejectDeposit_run (s : Engine) (did aid : Nat) (r : Option String)
    (now : Nat) (d : DepositReq)
    (hd : findDeposit s did = some d) (hst : d.status = .pending) :
    rejectDeposit s did aid r now =
      .ok (setDepositStatus s did .rejected aid r now,
           depositStatusRow d .rejected aid r now) := by
  simp [rejectDeposit, hd, hst]

theorem createWithdrawalRequest_run (s : Engine) (uid : Nat) (am : Int)
    (bd : BankDetails) (now : Nat) (u : User)
    (h1 : ¬ am ≤ 0) (h2 : ¬ am < 100)
    (h3 : ¬ confirmedReferralCount s uid < REQUIRED_REFERRALS)
    (h4 : validateBankDetails (some bd) = .ok ())
    (h5 : findUser s uid = some u) (h6 : ¬ u.walletBalance < am) :
    createWithdrawalRequest s uid am (some bd) now =
      .ok ({ updateUserBalance s uid (u.walletBalance - am) with
             withdrawals := s.withdrawals ++ [withdrawalInsertRow s.nextId uid am bd now],
             nextId := s.nextId + 1 },
           withdrawalInsertRow s.nextId uid am bd now) := by
  simp [createWithdrawalRequest, updateUserBalance, h1, h2, h3, h4, h5, h6]

theorem confirmWithdrawal_run (s : Engine) (wid aid : Nat) (now : Nat)
    (w : WithdrawalReq)
    (hw : findWithdrawal s wid = some w) (hst : w.status = .pending) :
    confirmWithdrawal s wid aid now =
      .ok (setWithdrawalStatus s wid .completed aid none now,
           withdrawalStatusRow w .completed aid none now) := by
  simp [confirmWithdrawal, hw, hst]

theorem rejectWithdrawal_run (s : Engine) (wid aid : Nat) (r : Option String)
    (now : Nat) (w : WithdrawalReq) (u : User)
    (hw : findWithdrawal s wid = some w) (hst : w.status = .pending)
    (hu : findUser s w.userId = some u) :
    rejectWithdrawal s wid aid r now =
      .ok (setWithdrawalStatus (updateUserBalance s w.userId (u.walletBalance + w.amount))
             wid .rejected aid r now,
           withdrawalStatusRow w .rejected aid r now,
           u.walletBalance + w.amount) := by
  simp [rejectWithdrawal, hw, hst, hu]

theorem claimBonus_run (s : Engine) (uid bid : Nat) (now : Nat)
    (b : ReferralBonus)
    (hb : findBonus s bid = some b) (hown : b.referrerId = uid)
    (hcl : b.isClaimed = false) (hp : hasPendingClaim s bid = false) :
    claimBonus s uid bid now =
      .ok ({ s with
             claims := s.claims ++ [claimInsertRow s.nextId uid bid b.bonusAmount now],
             nextId := s.nextId + 1 },
           claimInsertRow s.nextId uid bid b.bonusAmount now) := by
  simp [claimBonus, hb, hown, hcl, hp]

theorem approveClaim_run (s : Engine) (cid aid : Nat) (now : Nat)
    (c : ClaimReq) (u : User)
    (hc : findClaim s cid = some c) (hst : c.status = .pending)
    (hu : findUser s c.userId = some u) :
    approveClaim s cid aid now =
      .ok (setClaimStatus
             (markAsClaimed (updateUserBalance s c.userId (u.walletBalance + c.amount)) c.bonusId)
             cid .approved aid none now,
           claimStatusRow c .approved aid none now,
           u.walletBalance + c.amount) := by
  simp [approveClaim, hc, hst, hu]

theorem rejectClaim_run (s : Engine) (cid aid : Nat) (r : Option String)
    (now : Nat) (c : ClaimReq)
    (hc : findClaim s cid = some c) (hst : c.status = .pending) :
    rejectClaim s cid aid r now =
      .ok (setClaimStatus s cid .rejected aid r now,
           claimStatusRow c .rejected aid r now) := by
  simp [rejectClaim, hc, hst]

/-! ## Inversion lemmas: what a successful call implies -/

theorem createDepositRequest_ok {s : Engine} {uid : Nat} {am : Int}
    {proof? : Option String} {tx : Option String} {now : Nat}
    {s' : Engine} {d : DepositReq}
    (h : createDepositRequest s uid am proof? tx now = .ok (s', d)) :
    ¬ am ≤ 0 ∧ ¬ am < 100 ∧
    ∃ pf, proof? = some pf ∧
      d = depositInsertRow s.nextId uid am pf tx now ∧
      s' = { s with
             deposits := s.deposits ++ [depositInsertRow s.nextId uid am pf tx now],
             nextId := s.nextId + 1 } := by
  by_cases hc0 : am ≤ 0
  · simp [createDepositRequest, hc0] at h
  by_cases hc1 : am < 100
  · simp [createDepositRequest, hc0, hc1] at h
  rcases proof? with _ | pf
  · simp [createDepositRequest, hc0, hc1] at h
  rw [createDepositRequest_run s uid am pf tx now hc0 hc1] at h
  injection h with h
  injection h with h1 h2
  exact ⟨hc0, hc1, pf, rfl, h2.symm, h1.symm⟩

theorem approveDeposit_ok {s : Engine} {did aid : Nat} {ok : Bool} {now : Nat}
    {s' : Engine} {d' : DepositReq} {nb : Int}
    (h : approveDeposit s did aid ok now = .ok (s', d', nb)) :
    ∃ d u, findDeposit s did = some d ∧ d.status = .pending ∧
      findUser s d.userId = some u ∧
      d' = depositStatusRow d .approved aid none now ∧
      nb = u.walletBalance + d.amount ∧
      s' = (if ok then
              (createBonusForDeposit
                (setDepositStatus (updateUserBalance s d.userId (u.walletBalance + d.amount))
                  did .approved aid none now) d.userId did d.amount now).1
            else
              setDepositStatus (updateUserBalance s d.userId (u.walletBalance + d.amount))
                did .approved aid none now) := by
  rcases hd : findDeposit s did with _ | d
  · simp [approveDeposit, hd] at h
  by_cases hst : d.status = Status.pending
  · rcases hu : findUser s d.userId with _ | u
    · simp [approveDeposit, hd, hst, hu] at h
    rw [approveDeposit_run s did aid ok now d u hd hst hu] at h
    injection h with h
    injection h with h1 h2
    injection h2 with h2 h3
    exact ⟨d, u, rfl, hst, hu, h2.symm, h3.symm, h1.symm⟩
  · simp [approveDeposit, hd, hst] at h

theorem rejectDeposit_ok {s : Engine} {did aid : Nat} {r : Option String}
    {now : Nat} {s' : Engine} {d' : DepositReq}
    (h : rejectDeposit s did aid r now = .ok (s', d')) :
    ∃ d, findDeposit s did = some d ∧ d.status = .pending ∧
      d' = depositStatusRow d .rejected aid r now ∧
      s' = setDepositStatus s did .rejected aid r now := by
  rcases hd : findDeposit s did with _ | d
  · simp [rejectDeposit, hd] at h
  by_cases hst : d.status = Status.pending
  · rw [rejectDeposit_run s did aid r now d hd hst] at h
    injection h with h
    injection h with h1 h2
    exact ⟨d, rfl, hst, h2.symm, h1.symm⟩
  · simp [rejectDeposit, hd, hst] at h

theorem createWithdrawalRequest_ok {s : Engine} {uid : Nat} {am : Int}
    {bd? : Option BankDetails} {now : Nat} {s' : Engine} {w : WithdrawalReq}
    (h : createWithdrawalRequest s uid am bd? now = .ok (s', w)) :
    ¬ am ≤ 0 ∧ ¬ am < 100 ∧
    ¬ confirmedReferralCount s uid < REQUIRED_REFERRALS ∧
    validateBankDetails bd? = .ok () ∧
    ∃ bd u, bd? = some bd ∧ findUser s uid = some u ∧ ¬ u.walletBalance < am ∧
      w = withdrawalInsertRow s.nextId uid am bd now ∧
      s' = { updateUserBalance s uid (u.walletBalance - am) with
             withdrawals := s.withdrawals ++ [withdrawalInsertRow s.nextId uid am bd now],
             nextId := s.nextId + 1 } := by
  by_cases hc0 : am ≤ 0
  · simp [createWithdrawalRequest, hc0] at h
  by_cases hc1 : am < 100
  · simp [createWithdrawalRequest, hc0, hc1] at h
  by_cases hc2 : confirmedReferralCount s uid < REQUIRED_REFERRALS
  · simp [createWithdrawalRequest, hc0, hc1, hc2] at h
  rcases hval : validateBankDetails bd? with e | u0
  · simp [createWithdrawalRequest, hc0, hc1, hc2, hval] at h
  cases u0
  rcases hbd : bd? with _ | bd
  · rw [hbd] at hval; simp [validateBankDetails] at hval
  rw [hbd] at hval h
  rcases hu : findUser s uid with _ | u
  · simp [createWithdrawalRequest, hc0, hc1, hc2, hval, hu] at h
  by_cases hbal : u.walletBalance < am
  · simp [createWithdrawalRequest, hc0, hc1, hc2, hval, hu, hbal] at h
  rw [createWithdrawalRequest_run s uid am bd now u hc0 hc1 hc2 hval hu hbal] at h
  injection h with h
  injection h with h1 h2
  exact ⟨hc0, hc1, hc2, rfl, bd, u, rfl, rfl, hbal, h2.symm, h1.symm⟩

theorem confirmWithdrawal_ok {s : Engine} {wid aid : Nat} {now : Nat}
    {s' : Engine} {w' : WithdrawalReq}
    (h : confirmWithdrawal s wid aid now = .ok (s', w')) :
    ∃ w, findWithdrawal s wid = some w ∧ w.status = .pending ∧
      w' = withdrawalStatusRow w .completed aid none now ∧
      s' = setWithdrawalStatus s wid .completed aid none now := by
  rcases hw : findWithdrawal s wid with _ | w
  · simp [confirmWithdrawal, hw] at h
  by_cases hst : w.status = Status.pending
  · rw [confirmWithdrawal_run s wid aid now w hw hst] at h
    injection h with h
    injection h with h1 h2
    exact ⟨w, rfl, hst, h2.symm, h1.symm⟩
  · simp [confirmWithdrawal, hw, hst] at h

theorem rejectWithdrawal_ok {s : Engine} {wid aid : Nat} {r : Option String}
    {now : Nat} {s' : Engine} {w' : WithdrawalReq} {nb : Int}
    (h : rejectWithdrawal s wid aid r now = .ok (s', w', nb)) :
    ∃ w u, findWithdrawal s wid = some w ∧ w.status = .pending ∧
      findUser s w.userId = some u ∧
      w' = withdrawalStatusRow w .rejected aid r now ∧
      nb = u.walletBalance + w.amount ∧
      s' = setWithdrawalStatus (updateUserBalance s w.userId (u.walletBalance + w.amount))
             wid .rejected aid r now := by
  rcases hw : findWithdrawal s wid with _ | w
  · simp [rejectWithdrawal, hw] at h
  by_cases hst : w.status = Status.pending
  · rcases hu : findUser s w.userId with _ | u
    · simp [rejectWithdrawal, hw, hst, hu] at h
    rw [rejectWithdrawal_run s wid aid r now w u hw hst hu] at h
    injection h with h
    injection h with h1 h2
    injection h2 with h2 h3
    exact ⟨w, u, rfl, hst, hu, h2.symm, h3.symm, h1.symm⟩
  · simp [rejectWithdrawal, hw, hst] at h

theorem claimBonus_ok {s : Engine} {uid bid : Nat} {now : Nat}
    {s' : Engine} {c : ClaimReq}
    (h : claimBonus s uid bid now = .ok (s', c)) :
    ∃ b, findBonus s bid = some b ∧ b.referrerId = uid ∧
      b.isClaimed = false ∧ hasPendingClaim s bid = false ∧
      c = claimInsertRow s.nextId uid bid b.bonusAmount now ∧
      s' = { s with
             claims := s.claims ++ [claimInsertRow s.nextId uid bid b.bonusAmount now],
             nextId := s.nextId + 1 } := by
  rcases hb : findBonus s bid with _ | b
  · simp [claimBonus, hb] at h
  by_cases hown : b.referrerId = uid
  · by_cases hcl : b.isClaimed = true
    · simp [claimBonus, hb, hown, hcl] at h
    by_cases hp : hasPendingClaim s bid = true
    · simp [claimBonus, hb, hown, hcl, hp] at h
    rw [claimBonus_run s uid bid now b hb hown (by simpa using hcl) (by simpa using hp)] at h
    injection h with h
    injection h with h1 h2
    exact ⟨b, rfl, hown, by simpa using hcl, by simpa using hp, h2.symm, h1.symm⟩
  · simp [claimBonus, hb, hown] at h

theorem approveClaim_ok {s : Engine} {cid aid : Nat} {now : Nat}
    {s' : Engine} {c' : ClaimReq} {nb : Int}
    (h : approveClaim s cid aid now = .ok (s', c', nb)) :
    ∃ c u, findClaim s cid = some c ∧ c.status = .pending ∧
      findUser s c.userId = some u ∧
      c' = claimStatusRow c .approved aid none now ∧
      nb = u.walletBalance + c.amount ∧
      s' = setClaimStatus
             (markAsClaimed (updateUserBalance s c.userId (u.walletBalance + c.amount)) c.bonusId)
             cid .approved aid none now := by
  rcases hc : findClaim s cid with _ | c
  · simp [approveClaim, hc] at h
  by_cases hst : c.status = Status.pending
  · rcases hu : findUser s c.userId with _ | u
    · simp [approveClaim, hc, hst, hu] at h
    rw [approveClaim_run s cid aid now c u hc hst hu] at h
    injection h with h
    injection h with h1 h2
    injection h2 with h2 h3
    exact ⟨c, u, rfl, hst, hu, h2.symm, h3.symm, h1.symm⟩
  · simp [approveClaim, hc, hst] at h

theorem rejectClaim_ok {s : Engine} {cid aid : Nat} {r : Option String}
    {now : Nat} {s' : Engine} {c' : ClaimReq}
    (h : rejectClaim s cid aid r now = .ok (s', c')) :
    ∃ c, findClaim s cid = some c ∧ c.status = .pending ∧
      c' = claimStatusRow c .rejected aid r now ∧
      s' = setClaimStatus s cid .rejected aid r now := by
  rcases hc : findClaim s cid with _ | c
  · simp [rejectClaim, hc] at h
  by_cases hst : c.status = Status.pending
  · rw [rejectClaim_run s cid aid r now c hc hst] at h
    injection h with h
    injection h with h1 h2
    exact ⟨c, rfl, hst, h2.symm, h1.symm⟩
  · simp [rejectClaim, hc, hst] at h

theorem findDeposit_mem {s : Engine} {i : Nat} {d : DepositReq}
    (h : findDeposit s i = some d) : d ∈ s.deposits :=
  List.mem_of_find?_eq_some h

theorem findWithdrawal_mem {s : Engine} {i : Nat} {w : WithdrawalReq}
    (h : findWithdrawal s i = some w) : w ∈ s.withdrawals :=
  List.mem_of_find?_eq_some h

theorem findBonus_mem {s : Engine} {i : Nat} {b : ReferralBonus}
    (h : findBonus s i = some b) : b ∈ s.bonuses :=
  List.mem_of_find?_eq_some h

theorem findClaim_mem {s : Engine} {i : Nat} {c : ClaimReq}
    (h : findClaim s i = some c) : c ∈ s.claims :=
  List.mem_of_find?_eq_some h

/-! ## Well-formedness preservation, per operation -/

theorem wf_createDepositRequest {s : Engine} {uid : Nat} {am : Int}
    {proof? tx : Option String} {now : Nat} {s' : Engine} {d : DepositReq}
    (hwf : WF s) (h : createDepositRequest s uid am proof? tx now = .ok (s', d)) :
    WF s' := by
  obtain ⟨hc0, _, pf, _, _, hs'⟩ := createDepositRequest_ok h
  subst hs'
  rcases hwf with ⟨h1, h2, h3, h4, h5⟩
  refine ⟨h1, ?_, h3, h4, h5⟩
  intro x hx
  rcases List.mem_append.1 hx with hx | hx
  · exact h2 x hx
  · simp at hx; subst hx; simp [depositInsertRow]; omega

theorem wf_approveDeposit {s : Engine} {did aid : Nat} {ok : Bool} {now : Nat}
    {s' : Engine} {d' : DepositReq} {nb : Int}
    (hwf : WF s) (h : approveDeposit s did aid ok now = .ok (s', d', nb)) :
    WF s' := by
  obtain ⟨d, u, hd, _, hu, _, _, hs'⟩ := approveDeposit_ok h
  subst hs'
  have hdpos : 0 < d.amount := hwf.2.1 d (findDeposit_mem hd)
  have hub : 0 ≤ u.walletBalance := hwf.1 _ (findUser_mem hu)
  have w1 : WF (updateUserBalance s d.userId (u.walletBalance + d.amount)) :=
    ⟨users_nonneg_update hwf.1 (by omega), hwf.2.1, hwf.2.2.1, hwf.2.2.2.1, hwf.2.2.2.2⟩
  have w2 : WF (setDepositStatus (updateUserBalance s d.userId (u.walletBalance + d.amount))
      did .approved aid none now) :=
    ⟨w1.1, deposits_pos_setStatus w1.2.1, w1.2.2.1, w1.2.2.2.1, w1.2.2.2.2⟩
  cases ok with
  | false => simpa using w2
  | true => simpa using wf_createBonus _ d.userId did d.amount now w2

theorem wf_rejectDeposit {s : Engine} {did aid : Nat} {r : Option String}
    {now : Nat} {s' : Engine} {d' : DepositReq}
    (hwf : WF s) (h : rejectDeposit s did aid r now = .ok (s', d')) : WF s' := by
  obtain ⟨d, _, _, _, hs'⟩ := rejectDeposit_ok h
  subst hs'
  exact ⟨hwf.1, deposits_pos_setStatus hwf.2.1, hwf.2.2.1, hwf.2.2.2.1, hwf.2.2.2.2⟩

theorem wf_createWithdrawalRequest {s : Engine} {uid : Nat} {am : Int}
    {bd? : Option BankDetails} {now : Nat} {s' : Engine} {w : WithdrawalReq}
    (hwf : WF s) (h : createWithdrawalRequest s uid am bd? now = .ok (s', w)) :
    WF s' := by
  obtain ⟨hc0, _, _, _, bd, u, _, hu, hbal, _, hs'⟩ := createWithdrawalRequest_ok h
  subst hs'
  rcases hwf with ⟨h1, h2, h3, h4, h5⟩
  refine ⟨users_nonneg_update h1 (by omega), h2, ?_, h4, h5⟩
  intro x hx
  rcases List.mem_append.1 hx with hx | hx
  · exact h3 x hx
  · simp at hx; subst hx; simp [withdrawalInsertRow]; omega

theorem wf_confirmWithdrawal {s : Engine} {wid aid : Nat} {now : Nat}
    {s' : Engine} {w' : WithdrawalReq}
    (hwf : WF s) (h : confirmWithdrawal s wid aid now = .ok (s', w')) : WF s' := by
  obtain ⟨w, _, _, _, hs'⟩ := confirmWithdrawal_ok h
  subst hs'
  exact ⟨hwf.1, hwf.2.1, withdrawals_pos_setStatus hwf.2.2.1, hwf.2.2.2.1, hwf.2.2.2.2⟩

theorem wf_rejectWithdrawal {s : Engine} {wid aid : Nat} {r : Option String}
    {now : Nat} {s' : Engine} {w' : WithdrawalReq} {nb : Int}
    (hwf : WF s) (h : rejectWithdrawal s wid aid r now = .ok (s', w', nb)) :
    WF s' := by
  obtain ⟨w, u, hw, _, hu, _, _, hs'⟩ := rejectWithdrawal_ok h
  subst hs'
  have hwpos : 0 < w.amount := hwf.2.2.1 w (findWithdrawal_mem hw)
  have hub : 0 ≤ u.walletBalance := hwf.1 _ (findUser_mem hu)
  have w1 : WF (updateUserBalance s w.userId (u.walletBalance + w.amount)) :=
    ⟨users_nonneg_update hwf.1 (by omega), hwf.2.1, hwf.2.2.1, hwf.2.2.2.1, hwf.2.2.2.2⟩
  exact ⟨w1.1, w1.2.1, withdrawals_pos_setStatus w1.2.2.1, w1.2.2.2.1, w1.2.2.2.2⟩

theorem wf_claimBonus {s : Engine} {uid bid : Nat} {now : Nat}
    {s' : Engine} {c : ClaimReq}
    (hwf : WF s) (h : claimBonus s uid bid now = .ok (s', c)) : WF s' := by
  obtain ⟨b, hb, _, _, _, _, hs'⟩ := claimBonus_ok h
  subst hs'
  have hbpos : 0 < b.bonusAmount := hwf.2.2.2.1 b (findBonus_mem hb)
  rcases hwf with ⟨h1, h2, h3, h4, h5⟩
  refine ⟨h1, h2, h3, h4, ?_⟩
  intro x hx
  rcases List.mem_append.1 hx with hx | hx
  · exact h5 x hx
  · simp at hx; subst hx; simpa [claimInsertRow] using hbpos

theorem wf_approveClaim {s : Engine} {cid aid : Nat} {now : Nat}
    {s' : Engine} {c' : ClaimReq} {nb : Int}
    (hwf : WF s) (h : approveClaim s cid aid now = .ok (s', c', nb)) : WF s' := by
  obtain ⟨c, u, hc, _, hu, _, _, hs'⟩ := approveClaim_ok h
  subst hs'
  have hcpos : 0 < c.amount := hwf.2.2.2.2 c (findClaim_mem hc)
  have hub : 0 ≤ u.walletBalance := hwf.1 _ (findUser_mem hu)
  have w1 : WF (updateUserBalance s c.userId (u.walletBalance + c.amount)) :=
    ⟨users_nonneg_update hwf.1 (by omega), hwf.2.1, hwf.2.2.1, hwf.2.2.2.1, hwf.2.2.2.2⟩
  have w2 : WF (markAsClaimed (updateUserBalance s c.userId (u.walletBalance + c.amount)) c.bonusId) :=
    ⟨w1.1, w1.2.1, w1.2.2.1, bonuses_pos_markClaimed w1.2.2.2.1, w1.2.2.2.2⟩
  exact ⟨w2.1, w2.2.1, w2.2.2.1, w2.2.2.2.1, claims_pos_setStatus w2.2.2.2.2⟩

theorem wf_rejectClaim {s : Engine} {cid aid : Nat} {r : Option String}
    {now : Nat} {s' : Engine} {c' : ClaimReq}
    (hwf : WF s) (h : rejectClaim s cid aid r now = .ok (s', c')) : WF s' := by
  obtain ⟨c, _, _, _, hs'⟩ := rejectClaim_ok h
  subst hs'
  exact ⟨hwf.1, hwf.2.1, hwf.2.2.1, hwf.2.2.2.1, claims_pos_setStatus hwf.2.2.2.2⟩

/-! ## Guard-failure lemmas (the shared approval guard, spec §4.5) -/

theorem approveDeposit_err_notFound {s : Engine} {i a : Nat} {ok : Bool} {n : Nat}
    (hd : findDeposit s i = none) : approveDeposit s i a ok n = .error .notFound := by
  simp [approveDeposit, hd]

theorem rejectDeposit_err_notFound {s : Engine} {i a : Nat} {r : Option String} {n : Nat}
    (hd : findDeposit s i = none) : rejectDeposit s i a r n = .error .notFound := by
  simp [rejectDeposit, hd]

theorem approveDeposit_err_processed {s : Engine} {i a : Nat} {ok : Bool} {n : Nat}
    {d : DepositReq} (hd : findDeposit s i = some d) (hst : d.status ≠ .pending) :
    approveDeposit s i a ok n = .error .alreadyProcessed := by
  simp [approveDeposit, hd, hst]

theorem rejectDeposit_err_processed {s : Engine} {i a : Nat} {r : Option String} {n : Nat}
    {d : DepositReq} (hd : findDeposit s i = some d) (hst : d.status ≠ .pending) :
    rejectDeposit s i a r n = .error .alreadyProcessed := by
  simp [rejectDeposit, hd, hst]

theorem confirmWithdrawal_err_notFound {s : Engine} {i a n : Nat}
    (hw : findWithdrawal s i = none) : confirmWithdrawal s i a n = .error .notFound := by
  simp [confirmWithdrawal, hw]

theorem rejectWithdrawal_err_notFound {s : Engine} {i a : Nat} {r : Option String} {n : Nat}
    (hw : findWithdrawal s i = none) : rejectWithdrawal s i a r n = .error .notFound := by
  simp [rejectWithdrawal, hw]

theorem confirmWithdrawal_err_processed {s : Engine} {i a n : Nat}
    {w : WithdrawalReq} (hw : findWithdrawal s i = some w) (hst : w.status ≠ .pending) :
    confirmWithdrawal s i a n = .error .alreadyProcessed := by
  simp [confirmWithdrawal, hw, hst]

theorem rejectWithdrawal_err_processed {s : Engine} {i a : Nat} {r : Option String} {n : Nat}
    {w : WithdrawalReq} (hw : findWithdrawal s i = some w) (hst : w.status ≠ .pending) :
    rejectWithdrawal s i a r n = .error .alreadyProcessed := by
  simp [rejectWithdrawal, hw, hst]

theorem approveClaim_err_notFound {s : Engine} {i a n : Nat}
    (hc : findClaim s i = none) : approveClaim s i a n = .error .notFound := by
  simp [approveClaim, hc]

theorem rejectClaim_err_notFound {s : Engine} {i a : Nat} {r : Option String} {n : Nat}
    (hc : findClaim s i = none) : rejectClaim s i a r n = .error .notFound := by
  simp [rejectClaim, hc]

theorem approveClaim_err_processed {s : Engine} {i a n : Nat}
    {c : ClaimReq} (hc : findClaim s i = some c) (hst : c.status ≠ .pending) :
    approveClaim s i a n = .error .alreadyProcessed := by
  simp [approveClaim, hc, hst]

theorem rejectClaim_err_processed {s : Engine} {i a : Nat} {r : Option String} {n : Nat}
    {c : ClaimReq} (hc : findClaim s i = some c) (hst : c.status ≠ .pending) :
    rejectClaim s i a r n = .error .alreadyProcessed := by
  simp [rejectClaim, hc, hst]

/-! ## The processed request after a successful transition is terminal -/

theorem findDeposit_after_approve {s : Engine} {did aid : Nat} {ok : Bool}
    {now : Nat} {s' : Engine} {d' : DepositReq} {nb : Int}
    (h : approveDeposit s did aid ok now = .ok (s', d', nb)) :
    ∃ d0, findDeposit s' did = some d0 ∧ d0.status = .approved := by
  obtain ⟨d, u, hd, _, _, _, _, hs'⟩ := approveDeposit_ok h
  subst hs'
  have hd1 : findDeposit (updateUserBalance s d.userId (u.walletBalance + d.amount)) did
      = some d := hd
  cases ok with
  | false =>
    refine ⟨depositStatusRow d .approved aid none now, ?_, rfl⟩
    simp only [if_false, Bool.false_eq_true]
    rw [findDeposit_setStatus_self, hd1, Option.map_some']
  | true =>
    refine ⟨depositStatusRow d .approved aid none now, ?_, rfl⟩
    simp only [if_true]
    have hfr := (createBonus_frame
      (setDepositStatus (updateUserBalance s d.userId (u.walletBalance + d.amount))
        did .approved aid none now) d.userId did d.amount now).2.1
    have hsame : findDeposit ((createBonusForDeposit
        (setDepositStatus (updateUserBalance s d.userId (u.walletBalance + d.amount))
          did .approved aid none now) d.userId did d.amount now).1) did
        = findDeposit (setDepositStatus (updateUserBalance s d.userId (u.walletBalance + d.amount))
            did .approved aid none now) did := by
      simp only [findDeposit]
      rw [hfr]
    rw [hsame, findDeposit_setStatus_self, hd1, Option.map_some']

theorem findDeposit_after_reject {s : Engine} {did aid : Nat} {r : Option String}
    {now : Nat} {s' : Engine} {d' : DepositReq}
    (h : rejectDeposit s did aid r now = .ok (s', d')) :
    ∃ d0, findDeposit s' did = some d0 ∧ d0.status = .rejected := by
  obtain ⟨d, hd, _, _, hs'⟩ := rejectDeposit_ok h
  subst hs'
  refine ⟨depositStatusRow d .rejected aid r now, ?_, rfl⟩
  rw [findDeposit_setStatus_self, hd, Option.map_some']

theorem findWithdrawal_after_confirm {s : Engine} {wid aid now : Nat}
    {s' : Engine} {w' : WithdrawalReq}
    (h : confirmWithdrawal s wid aid now = .ok (s', w')) :
    ∃ w0, findWithdrawal s' wid = some w0 ∧ w0.status = .completed := by
  obtain ⟨w, hw, _, _, hs'⟩ := confirmWithdrawal_ok h
  subst hs'
  refine ⟨withdrawalStatusRow w .completed aid none now, ?_, rfl⟩
  rw [findWithdrawal_setStatus_self, hw, Option.map_some']

theorem findWithdrawal_after_reject {s : Engine} {wid aid : Nat} {r : Option String}
    {now : Nat} {s' : Engine} {w' : WithdrawalReq} {nb : Int}
    (h : rejectWithdrawal s wid aid r now = .ok (s', w', nb)) :
    ∃ w0, findWithdrawal s' wid = some w0 ∧ w0.status = .rejected := by
  obtain ⟨w, u, hw, _, _, _, _, hs'⟩ := rejectWithdrawal_ok h
  subst hs'
  have hw1 : findWithdrawal (updateUserBalance s w.userId (u.walletBalance + w.amount)) wid
      = some w := hw
  refine ⟨withdrawalStatusRow w .rejected aid r now, ?_, rfl⟩
  rw [findWithdrawal_setStatus_self, hw1, Option.map_some']

theorem findClaim_after_approve {s : Engine} {cid aid now : Nat}
    {s' : Engine} {c' : ClaimReq} {nb : Int}
    (h : approveClaim s cid aid now = .ok (s', c', nb)) :
    ∃ c0, findClaim s' cid = some c0 ∧ c0.status = .approved := by
  obtain ⟨c, u, hc, _, _, _, _, hs'⟩ := approveClaim_ok h
  subst hs'
  have hc1 : findClaim (markAsClaimed
      (updateUserBalance s c.userId (u.walletBalance + c.amount)) c.bonusId) cid
      = some c := hc
  refine ⟨claimStatusRow c .approved aid none now, ?_, rfl⟩
  rw [findClaim_setStatus_self, hc1, Option.map_some']

theorem findClaim_after_reject {s : Engine} {cid aid : Nat} {r : Option String}
    {now : Nat} {s' : Engine} {c' : ClaimReq}
    (h : rejectClaim s cid aid r now = .ok (s', c')) :
    ∃ c0, findClaim s' cid = some c0 ∧ c0.status = .rejected := by
  obtain ⟨c, hc, _, _, hs'⟩ := rejectClaim_ok h
  subst hs'
  refine ⟨claimStatusRow c .rejected aid r now, ?_, rfl⟩
  rw [findClaim_setStatus_self, hc, Option.map_some']

/-- `find?` skips a prefix on which the predicate is everywhere false. -/
theorem find?_append_right {α : Type} (p : α → Bool) (l₁ l₂ : List α)
    (h : ∀ x ∈ l₁, p x = false) : (l₁ ++ l₂).find? p = l₂.find? p := by
  induction l₁ with
  | nil => rfl
  | cons a t ih =>
    rw [List.cons_append, List.find?_cons_of_neg, ih]
    · exact fun x hx => h x (List.mem_cons_of_mem a hx)
    · simp [h a (List.mem_cons_self a t)]

/-- Balances only read the `users` relation. -/
theorem balanceOf_eq_of_users_eq {s t : Engine} (h : s.users = t.users)
    (uid : Nat) : balanceOf s uid = balanceOf t uid := by
  simp [balanceOf, findUser, h]

/-- `Math.floor(n * 0.05)` on an integer amount is floor division by 20,
which is exactly the spec's `⌊n × 0.05⌋`. -/
theorem fdiv_twenty_eq_specBonusAmount (n : Int) :
    Int.fdiv n 20 = specBonusAmount n := by
  unfold specBonusAmount
  have h1 : (n : ℚ) * (5 / 100) = (n : ℚ) / ((20 : ℕ) : ℚ) := by
    push_cast
    ring_nf
  rw [h1, Rat.floor_intCast_div_natCast n 20, Int.fdiv_eq_ediv n (by norm_num)]
  norm_num

/-! ## Claim theorems -/

/-- **C1** — Non-negative balance invariant.  Starting from a
well-formed state (`WF`: all balances non-negative and all stored
request/bonus amounts positive, which is what every creation guard
enforces), each of the nine engine operations that succeeds yields a
well-formed state again — in particular no operation ever writes a
negative balance.  Moreover `CreateWithdrawal` fails with
`InsufficientFunds` whenever, with the earlier validation steps
passing, the account's balance is strictly below the requested
amount. -/
theorem balance_nonneg_invariant (s : Engine) (hwf : WF s) :
    (∀ uid am pf tx now s' d,
       createDepositRequest s uid am pf tx now = .ok (s', d) → WF s') ∧
    (∀ did aid ok now s' d nb,
       approveDeposit s did aid ok now = .ok (s', d, nb) → WF s') ∧
    (∀ did aid r now s' d,
       rejectDeposit s did aid r now = .ok (s', d) → WF s') ∧
    (∀ uid am bd now s' w,
       createWithdrawalRequest s uid am bd now = .ok (s', w) → WF s') ∧
    (∀ wid aid now s' w,
       confirmWithdrawal s wid aid now = .ok (s', w) → WF s') ∧
    (∀ wid aid r now s' w nb,
       rejectWithdrawal s wid aid r now = .ok (s', w, nb) → WF s') ∧
    (∀ uid bid now s' c,
       claimBonus s uid bid now = .ok (s', c) → WF s') ∧
    (∀ cid aid now s' c nb,
       approveClaim s cid aid now = .ok (s', c, nb) → WF s') ∧
    (∀ cid aid r now s' c,
       rejectClaim s cid aid r now = .ok (s', c) → WF s') ∧
    (∀ uid am bd now u, 100 ≤ am →
       REQUIRED_REFERRALS ≤ confirmedReferralCount s uid →
       validateBankDetails bd = .ok () →
       findUser s uid = some u → u.walletBalance < am →
       createWithdrawalRequest s uid am bd now = .error .insufficientFunds) := by
  refine ⟨?_, ?_, ?_, ?_, ?_, ?_, ?_, ?_, ?_, ?_⟩
  · exact fun _ _ _ _ _ _ _ h => wf_createDepositRequest hwf h
  · exact fun _ _ _ _ _ _ _ h => wf_approveDeposit hwf h
  · exact fun _ _ _ _ _ _ h => wf_rejectDeposit hwf h
  · exact fun _ _ _ _ _ _ h => wf_createWithdrawalRequest hwf h
  · exact fun _ _ _ _ _ h => wf_confirmWithdrawal hwf h
  · exact fun _ _ _ _ _ _ _ h => wf_rejectWithdrawal hwf h
  · exact fun _ _ _ _ _ h => wf_claimBonus hwf h
  · exact fun _ _ _ _ _ _ h => wf_approveClaim hwf h
  · exact fun _ _ _ _ _ _ h => wf_rejectClaim hwf h
  · intro uid am bd now u ha he hval hu hbal
    have h0 : ¬ am ≤ 0 := by omega
    have h1 : ¬ am < 100 := by omega
    have h2 : ¬ confirmedReferralCount s uid < REQUIRED_REFERRALS := not_lt.2 he
    rcases bd with _ | bd0
    · simp [validateBankDetails] at hval
    · simp [createWithdrawalRequest, h0, h1, h2, hval, hu, hbal]

/-- Witness for C1 at a concrete state: `eligState` is well-formed, and
a 200-paise withdrawal by user 1 (balance 150, all other checks
passing) fails with `InsufficientFunds`. -/
theorem balance_nonneg_invariant_witness :
    WF eligState ∧
    createWithdrawalRequest eligState 1 200 (some bdAcct) 0 = .error .insufficientFunds :=
  ⟨by decide,
   (balance_nonneg_invariant eligState (by decide)).2.2.2.2.2.2.2.2.2
     1 200 (some bdAcct) 0 ⟨none, 150⟩ (by decide) (by decide) rfl rfl (by decide)⟩

/-- **C3** — Exactly-once processing guard.  For each of the six
approve/reject operations: a missing request id yields `NotFound`; a
request whose status is not `pending` yields `AlreadyProcessed` (the
guard fires before any mutation, so the rolled-back state is
unchanged); and after any successful approve/reject, either follow-up
call on the same id fails with `AlreadyProcessed`, so two successive
calls succeed at most once. -/
theorem exactly_once_guard (s : Engine) (i a a' : Nat) (ok ok' : Bool)
    (r r' : Option String) (n n' : Nat) :
    (findDeposit s i = none →
       approveDeposit s i a ok n = .error .notFound ∧
       rejectDeposit s i a r n = .error .notFound) ∧
    (∀ d, findDeposit s i = some d → d.status ≠ .pending →
       approveDeposit s i a ok n = .error .alreadyProcessed ∧
       rejectDeposit s i a r n = .error .alreadyProcessed) ∧
    (∀ s' d nb, approveDeposit s i a ok n = .ok (s', d, nb) →
       approveDeposit s' i a' ok' n' = .error .alreadyProcessed ∧
       rejectDeposit s' i a' r' n' = .error .alreadyProcessed) ∧
    (∀ s' d, rejectDeposit s i a r n = .ok (s', d) →
       approveDeposit s' i a' ok' n' = .error .alreadyProcessed ∧
       rejectDeposit s' i a' r' n' = .error .alreadyProcessed) ∧
    (findWithdrawal s i = none →
       confirmWithdrawal s i a n = .error .notFound ∧
       rejectWithdrawal s i a r n = .error .notFound) ∧
    (∀ w, findWithdrawal s i = some w → w.status ≠ .pending →
       confirmWithdrawal s i a n = .error .alreadyProcessed ∧
       rejectWithdrawal s i a r n = .error .alreadyProcessed) ∧
    (∀ s' w, confirmWithdrawal s i a n = .ok (s', w) →
       confirmWithdrawal s' i a' n' = .error .alreadyProcessed ∧
       rejectWithdrawal s' i a' r' n' = .error .alreadyProcessed) ∧
    (∀ s' w nb, rejectWithdrawal s i a r n = .ok (s', w, nb) →
       confirmWithdrawal s' i a' n' = .error .alreadyProcessed ∧
       rejectWithdrawal s' i a' r' n' = .error .alreadyProcessed) ∧
    (findClaim s i = none →
       approveClaim s i a n = .error .notFound ∧
       rejectClaim s i a r n = .error .notFound) ∧
    (∀ c, findClaim s i = some c → c.status ≠ .pending →
       approveClaim s i a n = .error .alreadyProcessed ∧
       rejectClaim s i a r n = .error .alreadyProcessed) ∧
    (∀ s' c nb, approveClaim s i a n = .ok (s', c, nb) →
       approveClaim s' i a' n' = .error .alreadyProcessed ∧
       rejectClaim s' i a' r' n' = .error .alreadyProcessed) ∧
    (∀ s' c, rejectClaim s i a r n = .ok (s', c) →
       approveClaim s' i a' n' = .error .alreadyProcessed ∧
       rejectClaim s' i a' r' n' = .error .alreadyProcessed) := by
  refine ⟨?_, ?_, ?_, ?_, ?_, ?_, ?_, ?_, ?_, ?_, ?_, ?_⟩
  · exact fun h => ⟨approveDeposit_err_notFound h, rejectDeposit_err_notFound h⟩
  · exact fun d hd hst =>
      ⟨approveDeposit_err_processed hd hst, rejectDeposit_err_processed hd hst⟩
  · intro s' d nb h
    obtain ⟨d0, hfind, hstatus⟩ := findDeposit_after_approve h
    have hne : d0.status ≠ .pending := by simp [hstatus]
    exact ⟨approveDeposit_err_processed hfind hne, rejectDeposit_err_processed hfind hne⟩
  · intro s' d h
    obtain ⟨d0, hfind, hstatus⟩ := findDeposit_after_reject h
    have hne : d0.status ≠ .pending := by simp [hstatus]
    exact ⟨approveDeposit_err_processed hfind hne, rejectDeposit_err_processed hfind hne⟩
  · exact fun h => ⟨confirmWithdrawal_err_notFound h, rejectWithdrawal_err_notFound h⟩
  · exact fun w hw hst =>
      ⟨confirmWithdrawal_err_processed hw hst, rejectWithdrawal_err_processed hw hst⟩
  · intro s' w h
    obtain ⟨w0, hfind, hstatus⟩ := findWithdrawal_after_confirm h
    have hne : w0.status ≠ .pending := by simp [hstatus]
    exact ⟨confirmWithdrawal_err_processed hfind hne, rejectWithdrawal_err_processed hfind hne⟩
  · intro s' w nb h
    obtain ⟨w0, hfind, hstatus⟩ := findWithdrawal_after_reject h
    have hne : w0.status ≠ .pending := by simp [hstatus]
    exact ⟨confirmWithdrawal_err_processed hfind hne, rejectWithdrawal_err_processed hfind hne⟩
  · exact fun h => ⟨approveClaim_err_notFound h, rejectClaim_err_notFound h⟩
  · exact fun c hc hst =>
      ⟨approveClaim_err_processed hc hst, rejectClaim_err_processed hc hst⟩
  · intro s' c nb h
    obtain ⟨c0, hfind, hstatus⟩ := findClaim_after_approve h
    have hne : c0.status ≠ .pending := by simp [hstatus]
    exact ⟨approveClaim_err_processed hfind hne, rejectClaim_err_processed hfind hne⟩
  · intro s' c h
    obtain ⟨c0, hfind, hstatus⟩ := findClaim_after_reject h
    have hne : c0.status ≠ .pending := by simp [hstatus]
    exact ⟨approveClaim_err_processed hfind hne, rejectClaim_err_processed hfind hne⟩

/-- Witness for C3: on the empty store, processing the non-existent
request 99 fails with `NotFound`, and confirming then re-confirming the
concrete pending withdrawal 7 fails the second time with
`AlreadyProcessed`. -/
theorem exactly_once_guard_witness :
    (approveDeposit emptyEngine 99 1 true 0 = .error .notFound) ∧
    ∃ s' w, confirmWithdrawal wPendingState 7 1 9 = .ok (s', w) ∧
      confirmWithdrawal s' 7 2 10 = .error .alreadyProcessed :=
  ⟨((exactly_once_guard emptyEngine 99 1 1 true true none none 0 0).1 rfl).1,
   _, _, rfl,
   ((exactly_once_guard wPendingState 7 1 2 true true none none 9 10).2.2.2.2.2.2.1
      _ _ rfl).1⟩

/-- **C10** — Processing frame property.  Each repository
`updateStatus` row transform modifies only `status`, `processedAt`,
`processedBy` and `rejectionReason`; the id, owner, amount,
payout/proof data and `createdAt` are untouched.  On approval /
confirmation the services pass `null`, so the returned request's
`rejectionReason` is `none`. -/
theorem terminal_update_frame :
    (∀ (w : WithdrawalReq) st aa rr nn,
       (withdrawalStatusRow w st aa rr nn).id = w.id ∧
       (withdrawalStatusRow w st aa rr nn).userId = w.userId ∧
       (withdrawalStatusRow w st aa rr nn).amount = w.amount ∧
       (withdrawalStatusRow w st aa rr nn).bankDetails = w.bankDetails ∧
       (withdrawalStatusRow w st aa rr nn).createdAt = w.createdAt ∧
       (withdrawalStatusRow w st aa rr nn).status = st ∧
       (withdrawalStatusRow w st aa rr nn).processedAt = some nn ∧
       (withdrawalStatusRow w st aa rr nn).processedBy = some aa ∧
       (withdrawalStatusRow w st aa rr nn).rejectionReason = rr) ∧
    (∀ (d : DepositReq) st aa rr nn,
       (depositStatusRow d st aa rr nn).id = d.id ∧
       (depositStatusRow d st aa rr nn).userId = d.userId ∧
       (depositStatusRow d st aa rr nn).amount = d.amount ∧
       (depositStatusRow d st aa rr nn).transactionId = d.transactionId ∧
       (depositStatusRow d st aa rr nn).paymentProofUrl = d.paymentProofUrl ∧
       (depositStatusRow d st aa rr nn).createdAt = d.createdAt ∧
       (depositStatusRow d st aa rr nn).status = st ∧
       (depositStatusRow d st aa rr nn).processedAt = some nn ∧
       (depositStatusRow d st aa rr nn).processedBy = some aa ∧
       (depositStatusRow d st aa rr nn).rejectionReason = rr) ∧
    (∀ (c : ClaimReq) st aa rr nn,
       (claimStatusRow c st aa rr nn).id = c.id ∧
       (claimStatusRow c st aa rr nn).userId = c.userId ∧
       (claimStatusRow c st aa rr nn).bonusId = c.bonusId ∧
       (claimStatusRow c st aa rr nn).amount = c.amount ∧
       (claimStatusRow c st aa rr nn).createdAt = c.createdAt ∧
       (claimStatusRow c st aa rr nn).status = st ∧
       (claimStatusRow c st aa rr nn).processedAt = some nn ∧
       (claimStatusRow c st aa rr nn).processedBy = some aa ∧
       (claimStatusRow c st aa rr nn).rejectionReason = rr) ∧
    (∀ s wid aid now s' w',
       confirmWithdrawal s wid aid now = .ok (s', w') → w'.rejectionReason = none) ∧
    (∀ s did aid ok now s' d' nb,
       approveDeposit s did aid ok now = .ok (s', d', nb) → d'.rejectionReason = none) ∧
    (∀ s cid aid now s' c' nb,
       approveClaim s cid aid now = .ok (s', c', nb) → c'.rejectionReason = none) := by
  refine ⟨?_, ?_, ?_, ?_, ?_, ?_⟩
  · intro w st aa rr nn
    exact ⟨rfl, rfl, rfl, rfl, rfl, rfl, rfl, rfl, rfl⟩
  · intro d st aa rr nn
    exact ⟨rfl, rfl, rfl, rfl, rfl, rfl, rfl, rfl, rfl, rfl⟩
  · intro c st aa rr nn
    exact ⟨rfl, rfl, rfl, rfl, rfl, rfl, rfl, rfl, rfl⟩
  · intro s wid aid now s' w' h
    obtain ⟨w, _, _, hw', _⟩ := confirmWithdrawal_ok h
    subst hw'; rfl
  · intro s did aid ok now s' d' nb h
    obtain ⟨d, u, _, _, _, hd', _, _⟩ := approveDeposit_ok h
    subst hd'; rfl
  · intro s cid aid now s' c' nb h
    obtain ⟨c, u, _, _, _, hc', _, _⟩ := approveClaim_ok h
    subst hc'; rfl

/-- Witness for C10: confirming the concrete pending withdrawal 7
overwrites `rejectionReason` with `none`. -/
theorem terminal_update_frame_witness :
    ∃ s' w', confirmWithdrawal wPendingState 7 1 9 = .ok (s', w') ∧
      w'.rejectionReason = none :=
  ⟨_, _, rfl,
   terminal_update_frame.2.2.2.1 wPendingState 7 1 9 _ _ rfl⟩

/-- **C4** — Withdrawal conservation.  For a pending withdrawal,
`ConfirmWithdrawal` sets `completed` and leaves every balance untouched
(`users` unchanged); `RejectWithdrawal` sets `rejected` and credits the
owner by exactly the request's amount, other balances unchanged; and a
create-then-reject round trip restores the owner's balance to its
pre-create value (for a fresh request id, as the id generator
guarantees). -/
theorem withdrawal_conservation (s : Engine) :
    (∀ wid aid now w, findWithdrawal s wid = some w → w.status = .pending →
       ∃ s' w', confirmWithdrawal s wid aid now = .ok (s', w') ∧
         w'.status = .completed ∧ s'.users = s.users) ∧
    (∀ wid aid r now w u, findWithdrawal s wid = some w → w.status = .pending →
       findUser s w.userId = some u →
       ∃ s' w' nb, rejectWithdrawal s wid aid r now = .ok (s', w', nb) ∧
         w'.status = .rejected ∧ nb = u.walletBalance + w.amount ∧
         balanceOf s' w.userId = some (u.walletBalance + w.amount) ∧
         (∀ v, v ≠ w.userId → balanceOf s' v = balanceOf s v)) ∧
    (∀ uid am bd now aid r s1 w0 n2,
       (∀ x ∈ s.withdrawals, x.id ≠ s.nextId) →
       createWithdrawalRequest s uid am bd now = .ok (s1, w0) →
       ∃ s2 w2 nb, rejectWithdrawal s1 w0.id aid r n2 = .ok (s2, w2, nb) ∧
         balanceOf s2 uid = balanceOf s uid) := by
  refine ⟨?_, ?_, ?_⟩
  · intro wid aid now w hw hst
    exact ⟨_, _, confirmWithdrawal_run s wid aid now w hw hst, rfl, rfl⟩
  · intro wid aid r now w u hw hst hu
    refine ⟨_, _, _, rejectWithdrawal_run s wid aid r now w u hw hst hu, rfl, rfl,
            ?_, ?_⟩
    · exact balanceOf_updateBalance_self s w.userId _ u hu
    · exact fun v hv => balanceOf_updateBalance_ne s w.userId v _ hv
  · intro uid am bd now aid r s1 w0 n2 hfresh h
    obtain ⟨hc0, hc1, hc2, hval, bd0, u, hbd, hu, hbal, hw0, hs1⟩ :=
      createWithdrawalRequest_ok h
    subst hs1
    subst hw0
    have hfind : findWithdrawal
        ({ updateUserBalance s uid (u.walletBalance - am) with
           withdrawals := s.withdrawals ++ [withdrawalInsertRow s.nextId uid am bd0 now],
           nextId := s.nextId + 1 })
        (withdrawalInsertRow s.nextId uid am bd0 now).id
        = some (withdrawalInsertRow s.nextId uid am bd0 now) := by
      show (s.withdrawals ++ [withdrawalInsertRow s.nextId uid am bd0 now]).find?
          (fun x => x.id == s.nextId) = _
      rw [find?_append_right]
      · simp [withdrawalInsertRow]
      · intro x hx
        simp [hfresh x hx]
    have hu1 : findUser
        ({ updateUserBalance s uid (u.walletBalance - am) with
           withdrawals := s.withdrawals ++ [withdrawalInsertRow s.nextId uid am bd0 now],
           nextId := s.nextId + 1 })
        (withdrawalInsertRow s.nextId uid am bd0 now).userId
        = some { u with walletBalance := u.walletBalance - am } := by
      show findUser (updateUserBalance s uid (u.walletBalance - am)) uid = _
      rw [findUser_updateBalance_self, hu, Option.map_some']
    refine ⟨_, _, _,
      rejectWithdrawal_run _ _ aid r n2 (withdrawalInsertRow s.nextId uid am bd0 now)
        { u with walletBalance := u.walletBalance - am } hfind rfl hu1, ?_⟩
    have hb2 : balanceOf
        (setWithdrawalStatus
          (updateUserBalance
            ({ updateUserBalance s uid (u.walletBalance - am) with
               withdrawals := s.withdrawals ++ [withdrawalInsertRow s.nextId uid am bd0 now],
               nextId := s.nextId + 1 })
            (withdrawalInsertRow s.nextId uid am bd0 now).userId
            ((u.walletBalance - am) + (withdrawalInsertRow s.nextId uid am bd0 now).amount))
          (withdrawalInsertRow s.nextId uid am bd0 now).id .rejected aid r n2) uid
        = some ((u.walletBalance - am) + am) :=
      balanceOf_updateBalance_self _ uid _ { u with walletBalance := u.walletBalance - am }
        (by
          show findUser (updateUserBalance s uid (u.walletBalance - am)) uid = _
          rw [findUser_updateBalance_self, hu, Option.map_some'])
    rw [hb2]
    simp [balanceOf, hu]

/-- Witness for C4: the round-trip conjunct at `eligState` with a
100-paise withdrawal for user 1, rejected at once. -/
theorem withdrawal_conservation_witness :
    ∃ s1 w0, createWithdrawalRequest eligState 1 100 (some bdAcct) 0 = .ok (s1, w0) ∧
      ∃ s2 w2 nb, rejectWithdrawal s1 w0.id 9 none 1 = .ok (s2, w2, nb) ∧
        balanceOf s2 1 = balanceOf eligState 1 :=
  ⟨_, _, rfl,
   (withdrawal_conservation eligState).2.2 1 100 (some bdAcct) 0 9 none _ _ 1
     (by decide) rfl⟩

/-- **C5** — Bonus-failure isolation.  Approving a pending deposit
credits the depositor by exactly the deposit amount and returns the
`approved` request, and the returned request, the new balance, and
every relation except `bonuses` are identical whether the nested
`CreateBonusForDeposit` call completes (`bonusOk = true`) or throws and
is swallowed by the `try/catch` (`bonusOk = false`). -/
theorem bonus_failure_isolated (s : Engine) (did aid : Nat) (now : Nat)
    (d : DepositReq) (u : User)
    (hd : findDeposit s did = some d) (hst : d.status = .pending)
    (hu : findUser s d.userId = some u) :
    ∃ s1 s2,
      approveDeposit s did aid true now
        = .ok (s1, depositStatusRow d .approved aid none now, u.walletBalance + d.amount) ∧
      approveDeposit s did aid false now
        = .ok (s2, depositStatusRow d .approved aid none now, u.walletBalance + d.amount) ∧
      (depositStatusRow d .approved aid none now).status = .approved ∧
      balanceOf s1 d.userId = some (u.walletBalance + d.amount) ∧
      balanceOf s2 d.userId = some (u.walletBalance + d.amount) ∧
      s1.users = s2.users ∧ s1.deposits = s2.deposits ∧
      s1.withdrawals = s2.withdrawals ∧ s1.claims = s2.claims := by
  refine ⟨_, _, approveDeposit_run s did aid true now d u hd hst hu,
          approveDeposit_run s did aid false now d u hd hst hu, rfl, ?_, ?_, ?_, ?_, ?_, ?_⟩
  · simp only [if_true]
    have hfr := (createBonus_frame
      (setDepositStatus (updateUserBalance s d.userId (u.walletBalance + d.amount))
        did .approved aid none now) d.userId did d.amount now).1
    rw [balanceOf_eq_of_users_eq hfr]
    exact balanceOf_updateBalance_self s d.userId _ u hu
  · simp only [Bool.false_eq_true, if_false]
    exact balanceOf_updateBalance_self s d.userId _ u hu
  · simp only [if_true, Bool.false_eq_true, if_false]
    exact (createBonus_frame _ d.userId did d.amount now).1
  · simp only [if_true, Bool.false_eq_true, if_false]
    exact (createBonus_frame _ d.userId did d.amount now).2.1
  · simp only [if_true, Bool.false_eq_true, if_false]
    exact (createBonus_frame _ d.userId did d.amount now).2.2.1
  · simp only [if_true, Bool.false_eq_true, if_false]
    exact (createBonus_frame _ d.userId did d.amount now).2.2.2

/-- Witness for C5 at `dPendingState`: approving pending deposit 5 for
user 1 (balance 100). -/
theorem bonus_failure_isolated_witness :
    ∃ s1 s2,
      approveDeposit dPendingState 5 2 true 1
        = .ok (s1, depositStatusRow ⟨5, 1, 10000, none, "p", .pending, 0, none, none, none⟩
                 .approved 2 none 1, 100 + 10000) ∧
      approveDeposit dPendingState 5 2 false 1
        = .ok (s2, depositStatusRow ⟨5, 1, 10000, none, "p", .pending, 0, none, none, none⟩
                 .approved 2 none 1, 100 + 10000) ∧
      (depositStatusRow (⟨5, 1, 10000, none, "p", .pending, 0, none, none, none⟩ : DepositReq)
         .approved 2 none 1).status = .approved ∧
      balanceOf s1 1 = some (100 + 10000) ∧
      balanceOf s2 1 = some (100 + 10000) ∧
      s1.users = s2.users ∧ s1.deposits = s2.deposits ∧
      s1.withdrawals = s2.withdrawals ∧ s1.claims = s2.claims :=
  bonus_failure_isolated dPendingState 5 2 1
    ⟨5, 1, 10000, none, "p", .pending, 0, none, none, none⟩ ⟨none, 100⟩ rfl rfl rfl

/-- **C6** — Bonus determinism.  `CreateBonusForDeposit` is a no-op
returning `null` when the depositor is unknown or has no referrer, or
when `⌊depositAmount × 0.05⌋ ≤ 0`; otherwise it inserts exactly one
unclaimed `ReferralBonus` row for the referrer whose `bonusAmount` is
exactly `⌊depositAmount × 0.05⌋` (the source's
`Math.floor(depositAmount * 0.05)`, i.e. floor division by 20). -/
theorem bonus_determinism (s : Engine) (duid did : Nat) (amt : Int) (now : Nat) :
    (findUser s duid = none → createBonusForDeposit s duid did amt now = (s, none)) ∧
    (∀ u, findUser s duid = some u → u.referredBy = none →
       createBonusForDeposit s duid did amt now = (s, none)) ∧
    (∀ u rid, findUser s duid = some u → u.referredBy = some rid →
       (Int.fdiv amt 20 ≤ 0 → createBonusForDeposit s duid did amt now = (s, none)) ∧
       (0 < Int.fdiv amt 20 →
          createBonusForDeposit s duid did amt now =
            ({ s with
               bonuses := s.bonuses ++
                 [bonusInsertRow s.nextId rid duid did amt (Int.fdiv amt 20) now],
               nextId := s.nextId + 1 },
             some (bonusInsertRow s.nextId rid duid did amt (Int.fdiv amt 20) now)) ∧
          (bonusInsertRow s.nextId rid duid did amt (Int.fdiv amt 20) now).bonusAmount
            = specBonusAmount amt ∧
          (bonusInsertRow s.nextId rid duid did amt (Int.fdiv amt 20) now).isClaimed
            = false ∧
          (bonusInsertRow s.nextId rid duid did amt (Int.fdiv amt 20) now).referrerId
            = rid)) ∧
    (∀ m : Int, Int.fdiv m 20 = specBonusAmount m) := by
  refine ⟨?_, ?_, ?_, fdiv_twenty_eq_specBonusAmount⟩
  · intro h
    simp [createBonusForDeposit, h]
  · intro u hu hr
    simp [createBonusForDeposit, hu, hr]
  · intro u rid hu hr
    constructor
    · intro hle
      simp [createBonusForDeposit, hu, hr, hle]
    · intro hpos
      have hle : ¬ Int.fdiv amt 20 ≤ 0 := not_le.2 hpos
      refine ⟨?_, ?_, rfl, rfl⟩
      · simp [createBonusForDeposit, hu, hr, hle]
      · simpa [bonusInsertRow] using fdiv_twenty_eq_specBonusAmount amt

/-- Witness for C6: user 2 in `bonusState` is referred by user 1; a
deposit of 10 000 paise yields a 500-paise bonus (10 000 / 20), and the
19-paise edge case floors to 0, a no-op. -/
theorem bonus_determinism_witness :
    createBonusForDeposit bonusState 2 10 10000 3 =
      ({ bonusState with
         bonuses := bonusState.bonuses ++
           [bonusInsertRow bonusState.nextId 1 2 10 10000 500 3],
         nextId := bonusState.nextId + 1 },
       some (bonusInsertRow bonusState.nextId 1 2 10 10000 500 3)) ∧
    createBonusForDeposit bonusState 2 10 19 3 = (bonusState, none) :=
  ⟨(((bonus_determinism bonusState 2 10 10000 3).2.2.1 ⟨some 1, 0⟩ 1 rfl rfl).2
      (by decide)).1,
   ((bonus_determinism bonusState 2 10 19 3).2.2.1 ⟨some 1, 0⟩ 1 rfl rfl).1 (by decide)⟩

theorem findClaim_id {s : Engine} {i : Nat} {c : ClaimReq}
    (h : findClaim s i = some c) : c.id = i := by
  have := List.find?_some h
  simpa using this

theorem not_pending_of_hasPendingClaim_false {s : Engine} {bid : Nat}
    (h : hasPendingClaim s bid = false) :
    ∀ c ∈ s.claims, c.bonusId = bid → c.status ≠ .pending := by
  intro c hc hb hp
  have hany : s.claims.any
      (fun c => c.bonusId == bid && decide (c.status = .pending)) = true :=
    List.any_eq_true.2 ⟨c, hc, by simp [hb, hp]⟩
  unfold hasPendingClaim at h
  rw [hany] at h
  cases h

/-- Exclusivity only reads the `claims` relation. -/
theorem claimExclusive_congr {s t : Engine} (h : t.claims = s.claims)
    (hex : ClaimExclusive s) : ClaimExclusive t := by
  unfold ClaimExclusive at *
  rw [h]
  exact hex

/-- A terminal-status rewrite of one claim row cannot create a second
pending claim. -/
theorem claimExclusive_setStatus {s : Engine} {cid aid : Nat} {r : Option String}
    {now : Nat} {st : Status} (hst : st ≠ .pending)
    (hex : ClaimExclusive s) : ClaimExclusive (setClaimStatus s cid st aid r now) := by
  intro c1 h1 c2 h2 hp1 hp2 hbid
  simp only [setClaimStatus] at h1 h2
  rcases List.mem_map.1 h1 with ⟨q1, hq1, rfl⟩
  rcases List.mem_map.1 h2 with ⟨q2, hq2, rfl⟩
  by_cases e1 : (q1.id == cid) = true
  · exfalso
    simp only [e1, if_true, claimStatusRow] at hp1
    exact hst hp1
  · simp only [e1, if_false] at hp1 hbid ⊢
    by_cases e2 : (q2.id == cid) = true
    · exfalso
      simp only [e2, if_true, claimStatusRow] at hp2
      exact hst hp2
    · simp only [e2, if_false] at hp2 hbid ⊢
      exact hex q1 hq1 q2 hq2 hp1 hp2 hbid

/-- **C7** — ClaimBonus guards and claim exclusivity.  `ClaimBonus`
fails with `NotFound`, `Forbidden`, `AlreadyClaimed` or `ClaimPending`
under the respective guards, and otherwise inserts exactly one pending
claim carrying the bonus's current amount without marking the bonus
claimed.  The at-most-one-pending-claim-per-bonus invariant
(`ClaimExclusive`) is preserved by every operation (the six
non-claim operations do not touch the `claims` relation at all), and
after a `RejectClaim` a new `ClaimBonus` on the same unclaimed bonus
succeeds. -/
theorem claim_bonus_guards (s : Engine) (uid bid now : Nat) :
    (findBonus s bid = none → claimBonus s uid bid now = .error .notFound) ∧
    (∀ b, findBonus s bid = some b → b.referrerId ≠ uid →
       claimBonus s uid bid now = .error .forbidden) ∧
    (∀ b, findBonus s bid = some b → b.referrerId = uid → b.isClaimed = true →
       claimBonus s uid bid now = .error .alreadyClaimed) ∧
    (∀ b, findBonus s bid = some b → b.referrerId = uid → b.isClaimed = false →
       hasPendingClaim s bid = true → claimBonus s uid bid now = .error .claimPending) ∧
    (∀ b, findBonus s bid = some b → b.referrerId = uid → b.isClaimed = false →
       hasPendingClaim s bid = false →
       ∃ s' c, claimBonus s uid bid now = .ok (s', c) ∧
         c.status = .pending ∧ c.amount = b.bonusAmount ∧ c.bonusId = bid ∧
         s'.claims = s.claims ++ [c] ∧ s'.bonuses = s.bonuses) ∧
    ((∀ uid' am pf tx n s' d, createDepositRequest s uid' am pf tx n = .ok (s', d) →
        s'.claims = s.claims) ∧
     (∀ did aid ok n s' d nb, approveDeposit s did aid ok n = .ok (s', d, nb) →
        s'.claims = s.claims) ∧
     (∀ did aid r n s' d, rejectDeposit s did aid r n = .ok (s', d) →
        s'.claims = s.claims) ∧
     (∀ uid' am bd n s' w, createWithdrawalRequest s uid' am bd n = .ok (s', w) →
        s'.claims = s.claims) ∧
     (∀ wid aid n s' w, confirmWithdrawal s wid aid n = .ok (s', w) →
        s'.claims = s.claims) ∧
     (∀ wid aid r n s' w nb, rejectWithdrawal s wid aid r n = .ok (s', w, nb) →
        s'.claims = s.claims)) ∧
    (ClaimExclusive s →
       (∀ s' c, claimBonus s uid bid now = .ok (s', c) → ClaimExclusive s') ∧
       (∀ cid aid n s' c nb, approveClaim s cid aid n = .ok (s', c, nb) →
          ClaimExclusive s') ∧
       (∀ cid aid r n s' c, rejectClaim s cid aid r n = .ok (s', c) →
          ClaimExclusive s')) ∧
    (∀ cid aid r n n2 s' c' c b, ClaimExclusive s →
       findClaim s cid = some c →
       rejectClaim s cid aid r n = .ok (s', c') →
       findBonus s c.bonusId = some b → b.isClaimed = false →
       ∃ s2 c2, claimBonus s' b.referrerId c.bonusId n2 = .ok (s2, c2)) := by
  refine ⟨?_, ?_, ?_, ?_, ?_, ⟨?_, ?_, ?_, ?_, ?_, ?_⟩, ?_, ?_⟩
  · intro h
    simp [claimBonus, h]
  · intro b hb hown
    simp [claimBonus, hb, hown]
  · intro b hb hown hcl
    simp [claimBonus, hb, hown, hcl]
  · intro b hb hown hcl hp
    simp [claimBonus, hb, hown, hcl, hp]
  · intro b hb hown hcl hp
    refine ⟨_, _, claimBonus_run s uid bid now b hb hown hcl hp, rfl, rfl, rfl, rfl, rfl⟩
  · intro uid' am pf tx n s' d h
    obtain ⟨_, _, pf0, _, _, hs'⟩ := createDepositRequest_ok h
    subst hs'; rfl
  · intro did aid ok n s' d nb h
    obtain ⟨d0, u, _, _, _, _, _, hs'⟩ := approveDeposit_ok h
    subst hs'
    cases ok with
    | false => rfl
    | true =>
      simpa using (createBonus_frame
        (setDepositStatus (updateUserBalance s d0.userId (u.walletBalance + d0.amount))
          did .approved aid none n) d0.userId did d0.amount n).2.2.2
  · intro did aid r n s' d h
    obtain ⟨d0, _, _, _, hs'⟩ := rejectDeposit_ok h
    subst hs'; rfl
  · intro uid' am bd n s' w h
    obtain ⟨_, _, _, _, bd0, u, _, _, _, _, hs'⟩ := createWithdrawalRequest_ok h
    subst hs'; rfl
  · intro wid aid n s' w h
    obtain ⟨w0, _, _, _, hs'⟩ := confirmWithdrawal_ok h
    subst hs'; rfl
  · intro wid aid r n s' w nb h
    obtain ⟨w0, u, _, _, _, _, _, hs'⟩ := rejectWithdrawal_ok h
    subst hs'; rfl
  · intro hex
    refine ⟨?_, ?_, ?_⟩
    · intro s' c h
      obtain ⟨b, hb, hown, hcl, hp, hc, hs'⟩ := claimBonus_ok h
      subst hs'; subst hc
      intro c1 h1 c2 h2 hp1 hp2 hbid
      rcases List.mem_append.1 h1 with h1 | h1
      · rcases List.mem_append.1 h2 with h2 | h2
        · exact hex c1 h1 c2 h2 hp1 hp2 hbid
        · exfalso
          simp only [List.mem_singleton] at h2
          subst h2
          have hb1 : c1.bonusId = bid := by simpa [claimInsertRow] using hbid
          exact not_pending_of_hasPendingClaim_false hp c1 h1 hb1 hp1
      · rcases List.mem_append.1 h2 with h2 | h2
        · exfalso
          simp only [List.mem_singleton] at h1
          subst h1
          have hb2 : c2.bonusId = bid := by
            simpa [claimInsertRow] using hbid.symm
          exact not_pending_of_hasPendingClaim_false hp c2 h2 hb2 hp2
        · simp only [List.mem_singleton] at h1 h2
          rw [h1, h2]
    · intro cid aid n s' c nb h
      obtain ⟨c0, u, _, _, _, _, _, hs'⟩ := approveClaim_ok h
      subst hs'
      exact claimExclusive_setStatus (by simp) (claimExclusive_congr rfl hex)
    · intro cid aid r n s' c h
      obtain ⟨c0, _, _, _, hs'⟩ := rejectClaim_ok h
      subst hs'
      exact claimExclusive_setStatus (by simp) hex
  · intro cid aid r n n2 s' c' c b hex hc h hb hcl
    obtain ⟨c0, hc0, hst0, _, hs'⟩ := rejectClaim_ok h
    have hcc : c0 = c := by
      rw [hc] at hc0
      exact Option.some_injective _ hc0.symm
    subst hcc
    subst hs'
    have hnp : hasPendingClaim (setClaimStatus s cid .rejected aid r n) c0.bonusId
        = false := by
      unfold hasPendingClaim
      rw [List.any_eq_false]
      intro x hx
      simp only [setClaimStatus] at hx
      rcases List.mem_map.1 hx with ⟨q, hq, rfl⟩
      by_cases e : (q.id == cid) = true
      · simp [e, claimStatusRow]
      · simp only [e, if_false, Bool.and_eq_true, beq_iff_eq, decide_eq_true_eq, not_and]
        intro hqb hqp
        have hqc : q = c0 := hex q hq c0 (findClaim_mem hc) hqp hst0 hqb
        subst hqc
        have : q.id = cid := findClaim_id hc
        simp [this] at e
    exact ⟨_, _, claimBonus_run _ _ _ n2 b hb rfl hcl hnp⟩

/-- Witness for C7: in `claimPendingState` a second claim on bonus 3
fails with `ClaimPending`; after the admin rejects the pending claim 4,
a fresh claim on the same bonus succeeds. -/
theorem claim_bonus_guards_witness :
    claimBonus claimPendingState 1 3 9 = .error .claimPending ∧
    ∃ s2 c2, ∃ s' c',
      rejectClaim claimPendingState 4 7 none 11 = .ok (s', c') ∧
      claimBonus s' 1 3 12 = .ok (s2, c2) :=
  ⟨(claim_bonus_guards claimPendingState 1 3 9).2.2.2.1
     ⟨3, 1, 2, 10, 10000, 500, false, 0⟩ rfl rfl rfl rfl,
   by
     obtain ⟨s2, c2, hok⟩ :=
       (claim_bonus_guards claimPendingState 1 3 9).2.2.2.2.2.2.2
         4 7 none 11 12 _ _ ⟨4, 1, 3, 500, .pending, 0, none, none, none⟩
         ⟨3, 1, 2, 10, 10000, 500, false, 0⟩ (by decide) rfl rfl rfl rfl
     exact ⟨s2, c2, _, _, rfl, hok⟩⟩

/-- **C8** — Referral eligibility gate.  `CreateWithdrawal` recounts,
at call time, the distinct referred accounts (`referredBy = accountId`)
having at least one approved deposit; below 5 it fails with
`EligibilityNotMet (5 − confirmed)` — in particular exactly 4 confirmed
referrals yield remaining count 1 — and with the count at 5 (and all
other preconditions holding) the same withdrawal succeeds. -/
theorem referral_eligibility_gate (s : Engine) (uid : Nat) (am : Int)
    (bd : Option BankDetails) (now : Nat) (ha : 100 ≤ am) :
    (confirmedReferralCount s uid
       = (s.users.filter (fun p => decide (p.2.referredBy = some uid) &&
            s.deposits.any (fun d =>
              d.userId == p.1 && decide (d.status = .approved)))).length) ∧
    (confirmedReferralCount s uid < REQUIRED_REFERRALS →
       createWithdrawalRequest s uid am bd now
         = .error (.eligibilityNotMet (REQUIRED_REFERRALS - confirmedReferralCount s uid))) ∧
    (confirmedReferralCount s uid = 4 →
       createWithdrawalRequest s uid am bd now = .error (.eligibilityNotMet 1)) ∧
    (REQUIRED_REFERRALS ≤ confirmedReferralCount s uid →
       ∀ bd0 u, bd = some bd0 → validateBankDetails (some bd0) = .ok () →
         findUser s uid = some u → am ≤ u.walletBalance →
         ∃ s' w, createWithdrawalRequest s uid am bd now = .ok (s', w)) := by
  have h0 : ¬ am ≤ 0 := by omega
  have h1 : ¬ am < 100 := by omega
  refine ⟨rfl, ?_, ?_, ?_⟩
  · intro hlt
    simp [createWithdrawalRequest, h0, h1, hlt]
  · intro hc
    have hlt : confirmedReferralCount s uid < REQUIRED_REFERRALS := by
      rw [hc]; decide
    have : REQUIRED_REFERRALS - confirmedReferralCount s uid = 1 := by
      rw [hc]; decide
    rw [← this]
    simp [createWithdrawalRequest, h0, h1, hlt]
  · intro hge bd0 u hbd hval hu hbal
    subst hbd
    exact ⟨_, _, createWithdrawalRequest_run s uid am bd0 now u h0 h1
      (not_lt.2 hge) hval hu (not_lt.2 hbal)⟩

/-- Witness for C8: user 1 in `elig4State` (4 confirmed referrals)
fails with `EligibilityNotMet 1`; in `richState` (5 confirmed, balance
50 000) the 20 000-paise withdrawal succeeds. -/
theorem referral_eligibility_gate_witness :
    createWithdrawalRequest elig4State 1 100 (some bdAcct) 0
      = .error (.eligibilityNotMet 1) ∧
    ∃ s' w, createWithdrawalRequest richState 1 20000 (some bdAcct) 0 = .ok (s', w) :=
  ⟨(referral_eligibility_gate elig4State 1 100 (some bdAcct) 0 (by decide)).2.2.1
     (by decide),
   (referral_eligibility_gate richState 1 20000 (some bdAcct) 0 (by decide)).2.2.2
     (by decide) bdAcct ⟨none, 50000⟩ rfl rfl rfl (by decide)⟩

/-- **C9** — Payout-details acceptance.  `validateBankDetails` accepts
an object iff it carries a (truthy) `upiId` or `accountNumber`, a
present `upiId` matches `/^[a-zA-Z0-9._-]+@[a-zA-Z0-9]+$/`, a present
`accountNumber` comes with an `ifscCode`, and a present `ifscCode`
matches `/^[A-Z]{4}0[A-Z0-9]{6}$/`.  Every rejection is a
`ValidationError`, and inside `createWithdrawalRequest` it aborts the
transaction with that error (the `Except` semantics keeps the
pre-state, i.e. balance and requests unchanged). -/
theorem payout_details_validation :
    (∀ bd : BankDetails,
       validateBankDetails (some bd) = .ok () ↔
         ((truthy bd.upiId = true ∨ truthy bd.accountNumber = true) ∧
          (truthy bd.upiId = true → upiMatches (bd.upiId.getD "") = true) ∧
          (truthy bd.accountNumber = true → truthy bd.ifscCode = true) ∧
          (truthy bd.ifscCode = true → ifscMatches (bd.ifscCode.getD "") = true))) ∧
    (∀ bd? e, validateBankDetails bd? = .error e →
       ∃ msg, e = .validationError msg) ∧
    (∀ s uid am bd? now, 100 ≤ am →
       REQUIRED_REFERRALS ≤ confirmedReferralCount s uid →
       ∀ e, validateBankDetails bd? = .error e →
         createWithdrawalRequest s uid am bd? now = .error e) := by
  refine ⟨?_, ?_, ?_⟩
  · intro bd
    cases htu : truthy bd.upiId <;> cases hta : truthy bd.accountNumber <;>
      cases hti : truthy bd.ifscCode <;> cases hmu : upiMatches (bd.upiId.getD "") <;>
      cases hmi : ifscMatches (bd.ifscCode.getD "") <;>
      simp [validateBankDetails, htu, hta, hti, hmu, hmi]
  · intro bd? e he
    rcases bd? with _ | bd
    · simp only [validateBankDetails] at he
      exact ⟨_, (Except.error.injEq _ _ ▸ he.symm : _)⟩
    · simp only [validateBankDetails] at he
      split_ifs at he
      all_goals injection he with he
      all_goals exact ⟨_, he.symm⟩
  · intro s uid am bd? now ha hge e he
    have h0 : ¬ am ≤ 0 := by omega
    have h1 : ¬ am < 100 := by omega
    have h2 : ¬ confirmedReferralCount s uid < REQUIRED_REFERRALS := not_lt.2 hge
    simp [createWithdrawalRequest, h0, h1, h2, he]

/-- Witness for C9: a malformed IFSC code (`"ABC"`) is rejected with a
`ValidationError`, and in `eligState` the enclosing withdrawal fails
with exactly that error. -/
theorem payout_details_validation_witness :
    (∃ msg, (Err.validationError "Invalid IFSC code format") = .validationError msg) ∧
    createWithdrawalRequest eligState 1 100
      (some { upiId := none, accountNumber := some "1", ifscCode := some "ABC",
              accountHolderName := none }) 0
      = .error (.validationError "Invalid IFSC code format") :=
  ⟨payout_details_validation.2.1
     (some { upiId := none, accountNumber := some "1", ifscCode := some "ABC",
             accountHolderName := none })
     (.validationError "Invalid IFSC code format") rfl,
   payout_details_validation.2.2 eligState 1 100
     (some { upiId := none, accountNumber := some "1", ifscCode := some "ABC",
             accountHolderName := none }) 0
     (by decide) (by decide) (.validationError "Invalid IFSC code format") rfl⟩

/-- **C2** — CreateWithdrawal is an atomic fund reservation.  A
successful call debits the account by exactly the amount and appends
exactly one pending withdrawal request, leaving every other relation
and every other balance unchanged; each listed failure condition makes
the call return an error; and an erroring call commits nothing — the
observed state is the unchanged pre-state (the transaction rolls
back). -/
theorem withdrawal_reservation (s : Engine) (uid : Nat) (am : Int)
    (bd? : Option BankDetails) (now : Nat) :
    (∀ s' w, createWithdrawalRequest s uid am bd? now = .ok (s', w) →
       ∃ u, findUser s uid = some u ∧
         balanceOf s' uid = some (u.walletBalance - am) ∧
         s'.withdrawals = s.withdrawals ++ [w] ∧
         w.status = .pending ∧ w.userId = uid ∧ w.amount = am ∧
         s'.deposits = s.deposits ∧ s'.bonuses = s.bonuses ∧ s'.claims = s.claims ∧
         (∀ v, v ≠ uid → balanceOf s' v = balanceOf s v)) ∧
    ((am < 100 ∨ confirmedReferralCount s uid < REQUIRED_REFERRALS ∨
        (∃ e, validateBankDetails bd? = .error e) ∨ findUser s uid = none ∨
        (∃ u, findUser s uid = some u ∧ u.walletBalance < am)) →
      ∃ e, createWithdrawalRequest s uid am bd? now = .error e) ∧
    (∀ e, createWithdrawalRequest s uid am bd? now = .error e →
       commitState s (createWithdrawalRequest s uid am bd? now) = s) := by
  refine ⟨?_, ?_, ?_⟩
  · intro s' w h
    obtain ⟨hc0, hc1, hc2, hval, bd0, u, hbd, hu, hbal, hw, hs'⟩ :=
      createWithdrawalRequest_ok h
    subst hs'
    subst hw
    refine ⟨u, hu, ?_, rfl, rfl, rfl, rfl, rfl, rfl, rfl, ?_⟩
    · exact balanceOf_updateBalance_self s uid _ u hu
    · exact fun v hv => balanceOf_updateBalance_ne s uid v _ hv
  · intro hdisj
    rcases hE : createWithdrawalRequest s uid am bd? now with e | p
    · exact ⟨e, rfl⟩
    · exfalso
      obtain ⟨s', w⟩ := p
      obtain ⟨hc0, hc1, hc2, hval, bd0, u, hbd, hu, hbal, _, _⟩ :=
        createWithdrawalRequest_ok hE
      rcases hdisj with h | h | h | h | h
      · exact hc1 h
      · exact hc2 h
      · rcases h with ⟨e, he⟩
        rw [hval] at he
        cases he
      · rw [hu] at h
        cases h
      · rcases h with ⟨u', hu', hb'⟩
        rw [hu] at hu'
        have : u' = u := (Option.some_injective _ hu').symm
        subst this
        exact hbal hb'
  · intro e he
    simp [commitState, he]

/-- Witness for C2: in `richState` the 20 000-paise withdrawal succeeds
with the characterized effects, while a 50-paise request (below the
floor) on the empty store returns an error. -/
theorem withdrawal_reservation_witness :
    (∃ s' w, createWithdrawalRequest richState 1 20000 (some bdAcct) 0 = .ok (s', w) ∧
       ∃ u, findUser richState 1 = some u ∧
         balanceOf s' 1 = some (u.walletBalance - 20000)) ∧
    ∃ e, createWithdrawalRequest emptyEngine 1 50 none 0 = .error e := by
  constructor
  · refine ⟨_, _, rfl, ?_⟩
    obtain ⟨u, hu, hb, _⟩ :=
      (withdrawal_reservation richState 1 20000 (some bdAcct) 0).1 _ _ rfl
    exact ⟨u, hu, hb⟩
  · exact (withdrawal_reservation emptyEngine 1 50 none 0).2.1 (Or.inl (by decide))

end Wallet
